import Mathlib

/-!
# TimeTracker — verified shallow embedding

A shallow embedding of the multi-tenant time-tracking data layer of the
TimeTracker repository (Express + PostgreSQL / SQLite), together with
theorems settling the specification claims about it.

Modelling conventions:
* A database table is a `List` of row structures; `id` is the primary key.
* `deleted_at IS NULL` (soft delete) is an `Option String` field, `none` = alive.
* A SQL `SELECT ... WHERE ...` is a `List.filter`; `UPDATE ... WHERE ...` is a
  `List.map` guarded by the `WHERE` predicate; `INSERT` appends.
* Each Express handler becomes a pure function from the authenticated actor,
  the validated request body and the database state to a response (and the new
  database state for mutations), mirroring the source control flow line by line.
* Timestamps travel as ISO-8601 UTC strings, compared lexicographically (which
  agrees with chronological order on the fixed-width canonical form).
-/

namespace TimeTracker

/-- The authenticated actor context attached by the `authenticate` middleware
(`middleware/auth.js`): `req.user = { id, organizationId, email, firstName,
lastName, role }`.  Only the fields the handlers below read are kept. -/
structure Actor where
  id : String
  organizationId : String
  role : String
  deriving Repr, DecidableEq

/-- A row of `projects` (schema.sql / SQLite schema), restricted to the columns
the modelled handlers touch. -/
structure ProjectRow where
  id : String
  organization_id : String
  deleted_at : Option String
  deriving Repr, DecidableEq

/-- A row of `tasks`, restricted to the columns the modelled handlers touch. -/
structure TaskRow where
  id : String
  organization_id : String
  project_id : String
  deleted_at : Option String
  deriving Repr, DecidableEq

/-- A row of `time_logs` (schema.sql lines 461-483 / SQLite schema).
`duration_hours` and `activity_score` are SQL decimals, modelled as `Rat`. -/
structure TimeLogRow where
  id : String
  organization_id : String
  user_id : String
  project_id : String
  task_id : String
  start_time : String
  end_time : String
  duration_ms : Int
  duration_hours : Rat
  paused_duration_ms : Int
  activity_score : Rat
  description : Option String
  is_billable : Bool
  status : String
  approved_by : Option String
  approved_at : Option String
  created_at : String
  updated_at : String
  deleted_at : Option String
  deriving Repr, DecidableEq

/-- A row of `screenshots` (metadata only), restricted to the columns the
modelled handlers touch. -/
structure ScreenshotRow where
  id : String
  organization_id : String
  user_id : String
  time_log_id : Option String
  s3_key : String
  s3_url : String
  file_size : Int
  mime_type : String
  captured_at : String
  created_at : String
  deleted_at : Option String
  deriving Repr, DecidableEq

/-- The database state: the tables touched by the modelled operations. -/
structure DB where
  projects : List ProjectRow
  tasks : List TaskRow
  time_logs : List TimeLogRow
  screenshots : List ScreenshotRow
  deriving Repr, DecidableEq

/-! ## Tenant Isolation Guard — `middleware/multiTenancy.js` -/

/-- A generic tenant-scoped row, as seen by the guard's query
`SELECT organization_id FROM <table> WHERE <idColumn> = $1 AND deleted_at IS NULL`. -/
structure TenantRow where
  id : String
  organization_id : String
  deleted_at : Option String
  deriving Repr, DecidableEq

/-- Result shape `{ valid, message }` returned by `validateOrganizationResource`. -/
structure ValidationResult where
  valid : Bool
  message : Option String
  deriving Repr, DecidableEq

/-- `validateOrganizationResource(req, resourceId, resourceTable)` from
`middleware/multiTenancy.js` lines 12-33.  The storage lookup may itself fail
(the `catch` branch), so the table argument is an `Except`: `.error` models the
`query` promise rejecting. -/
def validateOrganizationResource (actorOrgId : String) (resourceId : String)
    (storage : Except String (List TenantRow)) : ValidationResult :=
  match storage with
  | .error _ => { valid := false, message := some "Validation failed" }
  | .ok tbl =>
    let rows := tbl.filter (fun r => decide (r.id = resourceId ∧ r.deleted_at = none))
    match rows with
    | [] => { valid := false, message := some "Resource not found" }
    | r :: _ =>
      if r.organization_id ≠ actorOrgId then
        { valid := false, message := some "Resource does not belong to your organization" }
      else
        { valid := true, message := none }

/-! ## Time-Entry Lifecycle — `routes/timesheets.js` (`src/unnamed/part_002`) -/

/-- Response of `PUT /api/timesheets/approve`:
404 "Time log not found", 400 "Time log is already <status>", or 200 with the
`RETURNING id, status, approved_at` row. -/
inductive ApproveResp where
  | notFound
  | alreadyStatus (status : String)
  | ok (id status : String) (approvedAt : Option String)
  deriving Repr, DecidableEq

/-- `true` iff the response is the 200 success case. -/
def ApproveResp.isOk : ApproveResp → Bool
  | .ok _ _ _ => true
  | _ => false

/-- The row-level effect of the single-approve `UPDATE ... WHERE id = $3`:
rows whose id matches get the new status, approver and timestamps; all other
rows are untouched. -/
def approveUpdate (user : Actor) (timeLogId newStatus now : String)
    (r : TimeLogRow) : TimeLogRow :=
  if r.id = timeLogId then
    { r with status := newStatus, approved_by := some user.id,
             approved_at := some now, updated_at := now }
  else r

/-- `PUT /api/timesheets/approve` handler (`src/unnamed/part_002` lines 130-203),
after `express-validator` accepted the body.  `now` stands for the database's
`CURRENT_TIMESTAMP`.  The ownership check is the query
`SELECT id, user_id, status FROM time_logs WHERE id = $1 AND organization_id = $2
AND deleted_at IS NULL`; the update is `UPDATE time_logs SET status, approved_by,
approved_at, updated_at WHERE id = $3`. -/
def approveTimeLog (user : Actor) (timeLogId : String) (action : String)
    (now : String) (db : DB) : ApproveResp × DB :=
  let rows := db.time_logs.filter (fun r =>
    decide (r.id = timeLogId ∧ r.organization_id = user.organizationId ∧ r.deleted_at = none))
  match rows with
  | [] => (.notFound, db)
  | tl :: _ =>
    if tl.status ≠ "pending" then
      (.alreadyStatus tl.status, db)
    else
      let newStatus := if action = "approve" then "approved" else "rejected"
      let newLogs := db.time_logs.map (approveUpdate user timeLogId newStatus now)
      (.ok timeLogId newStatus (some now), { db with time_logs := newLogs })

/-- Response of `PUT /api/timesheets/bulk-approve`: the two 400 rejections and the
200 payload `{ approved, total, skipped }`. -/
inductive BulkResp where
  | notOwned
  | noPending
  | ok (approved total skipped : Nat)
  deriving Repr, DecidableEq

/-- The bulk existence/ownership query `SELECT id, status FROM time_logs WHERE
id IN ($2..$(n+1)) AND organization_id = $1 AND deleted_at IS NULL` with
parameters `[organizationId, ...timeLogIds]`, as the *server store* binds it:
`$1` is the organization, `$2..$(n+1)` the ids, so this query is bound
correctly on PostgreSQL.  (The embedded store's `$k → ?` rewrite destroys this
out-of-order numbering — see `bulkApproveEmbedded`.) -/
def bulkVerify (user : Actor) (timeLogIds : List String) (db : DB) : List TimeLogRow :=
  db.time_logs.filter (fun r =>
    decide (r.id ∈ timeLogIds ∧ r.organization_id = user.organizationId ∧ r.deleted_at = none))

/-- The row-level effect of the bulk UPDATE as the server store actually binds
it.  The source builds `SET status = $1, approved_by = $(m+2), ... WHERE id IN
($2..$(m+1)) AND status = 'pending'` with parameters
`[newStatus, req.user.id, ...pendingIds]` (`src/unnamed/part_002` lines
262-277), so PostgreSQL binds the IN list to `req.user.id` followed by every
pending id but the last, and binds `approved_by` to the *last pending id*, not
the caller.  (A time-log id in `approved_by` moreover violates its foreign key
to `users`, which this model does not enforce; with enforcement the real
statement throws and updates nothing — on neither reading does the update do
what the spec claims.) -/
def bulkUpdateRow (user : Actor) (newStatus now : String) (pendingIds : List String)
    (r : TimeLogRow) : TimeLogRow :=
  if r.id ∈ user.id :: pendingIds.dropLast ∧ r.status = "pending" then
    { r with status := newStatus, approved_by := some (pendingIds.getLastD ""),
             approved_at := some now, updated_at := now }
  else r

/-- `PUT /api/timesheets/bulk-approve` handler (`src/unnamed/part_002` lines
220-296) as the *server store* executes it, after `express-validator` accepted
the body.  The existence check is the `bulkVerify` query (correctly bound on
PostgreSQL) compared against `timeLogIds.length`; the update is the
misnumbered statement modelled by `bulkUpdateRow`, whose returned row count is
reported as `approved`. -/
def bulkApprove (user : Actor) (timeLogIds : List String) (action : String)
    (now : String) (db : DB) : BulkResp × DB :=
  let verify := bulkVerify user timeLogIds db
  if verify.length ≠ timeLogIds.length then
    (.notOwned, db)
  else
    let pendingLogs := verify.filter (fun r => decide (r.status = "pending"))
    if pendingLogs.length = 0 then
      (.noPending, db)
    else
      let newStatus := if action = "approve" then "approved" else "rejected"
      let pendingIds := pendingLogs.map (·.id)
      let newLogs := db.time_logs.map (bulkUpdateRow user newStatus now pendingIds)
      let updatedCount := db.time_logs.countP (fun r =>
        decide (r.id ∈ user.id :: pendingIds.dropLast ∧ r.status = "pending"))
      (.ok updatedCount timeLogIds.length (timeLogIds.length - pendingLogs.length),
       { db with time_logs := newLogs })

/-- `PUT /api/timesheets/bulk-approve` as the *embedded store* executes it:
`config/database-sqlite.js` rewrites every `$k` to an anonymous `?` and SQLite
binds the `?`s in text order, so the verify query — whose text places the
IN-list markers `$2..$(n+1)` before `organization_id = $1` — receives the
caller's organization id as the first IN-list member and the *last supplied
time-log id* as the `organization_id` filter.  (In the success branch, which
this misbinding makes unreachable for real data, the update text's `?` order
`$1, $(m+2), $2..$(m+1)` happens to agree with its parameter order
`[newStatus, user.id, ...pendingIds]`, so it would be bound as intended.) -/
def bulkApproveEmbedded (user : Actor) (timeLogIds : List String) (action : String)
    (now : String) (db : DB) : BulkResp × DB :=
  let verify := db.time_logs.filter (fun r =>
    decide (r.id ∈ user.organizationId :: timeLogIds.dropLast
      ∧ r.organization_id = timeLogIds.getLastD "" ∧ r.deleted_at = none))
  if verify.length ≠ timeLogIds.length then
    (.notOwned, db)
  else
    let pendingLogs := verify.filter (fun r => decide (r.status = "pending"))
    if pendingLogs.length = 0 then
      (.noPending, db)
    else
      let newStatus := if action = "approve" then "approved" else "rejected"
      let pendingIds := pendingLogs.map (·.id)
      let newLogs := db.time_logs.map (fun r =>
        if r.id ∈ pendingIds ∧ r.status = "pending" then
          { r with status := newStatus, approved_by := some user.id,
                   approved_at := some now, updated_at := now }
        else r)
      let updatedCount := db.time_logs.countP (fun r =>
        decide (r.id ∈ pendingIds ∧ r.status = "pending"))
      (.ok updatedCount timeLogIds.length (timeLogIds.length - pendingLogs.length),
       { db with time_logs := newLogs })

/-! ## Time-entry creation — `routes/timeLogs.js` `POST /time` -/

/-- Request body of `POST /api/log/time` after destructuring with its defaults
(`pausedDurationMs = 0`, `activityScore = 0`, `isBillable = false`). -/
structure TimeLogCreateReq where
  projectId : String
  taskId : String
  startTime : String
  endTime : String
  durationMs : Int
  durationHours : Rat
  pausedDurationMs : Int
  activityScore : Rat
  description : Option String
  isBillable : Bool
  deriving Repr, DecidableEq

/-- Recognizer for the canonical UTC profile `YYYY-MM-DDTHH:MM:SSZ` of ISO-8601,
a subset of the language accepted by `express-validator`'s `isISO8601()` (any
string accepted here is accepted by the real validator).  Crucially, like the
real validator it inspects a single string: it never compares `startTime` with
`endTime`. -/
def isBasicISO8601 (s : String) : Bool :=
  match s.toList with
  | [y1, y2, y3, y4, '-', m1, m2, '-', d1, d2, 'T',
     h1, h2, ':', n1, n2, ':', s1, s2, 'Z'] =>
    [y1, y2, y3, y4, m1, m2, d1, d2, h1, h2, n1, n2, s1, s2].all Char.isDigit
  | _ => false

/-- A hexadecimal digit, as matched by `[0-9a-fA-F]`. -/
def isHexChar (c : Char) : Bool :=
  c.isDigit || ('a' ≤ c && c ≤ 'f') || ('A' ≤ c && c ≤ 'F')

/-- Split a character list on `'-'` (the hyphen groups of a UUID literal). -/
def splitOnDash : List Char → List (List Char)
  | [] => [[]]
  | c :: rest =>
    let r := splitOnDash rest
    if c = '-' then
      [] :: r
    else
      match r with
      | [] => [[c]]
      | g :: gs => (c :: g) :: gs

/-- Recognizer for the 8-4-4-4-12 hex-with-dashes UUID shape checked by
`express-validator`'s `isUUID()` (version digit not constrained). -/
def isUUIDShape (s : String) : Bool :=
  match (splitOnDash s.toList).map (fun p => (p.length, p.all isHexChar)) with
  | [(8, true), (4, true), (4, true), (4, true), (12, true)] => true
  | _ => false

/-- The `express-validator` chain of `POST /api/log/time`
(`routes/timeLogs.js` lines 17-27): `projectId`/`taskId` are UUIDs,
`startTime`/`endTime` are ISO-8601, `durationMs` is an integer `≥ 1`,
`durationHours` a float `≥ 0`, `activityScore` a float in `[0, 100]`.
No validator relates `startTime` to `endTime`. -/
def validTimeLogBody (req : TimeLogCreateReq) : Bool :=
  isUUIDShape req.projectId && isUUIDShape req.taskId &&
  isBasicISO8601 req.startTime && isBasicISO8601 req.endTime &&
  decide (1 ≤ req.durationMs) && decide (0 ≤ req.durationHours) &&
  decide (0 ≤ req.activityScore ∧ req.activityScore ≤ 100)

/-- The backend selected once at startup by `config/database-factory.js`. -/
inductive Backend where
  | server
  | embedded
  deriving Repr, DecidableEq

/-- Character order, by code point. -/
def charLtB (a b : Char) : Bool :=
  decide (a.toNat < b.toNat)

/-- Lexicographic order on character lists. -/
def charListLt : List Char → List Char → Bool
  | [], [] => false
  | [], _ :: _ => true
  | _ :: _, [] => false
  | a :: as, b :: bs =>
    if charLtB a b then true
    else if charLtB b a then false
    else charListLt as bs

/-- Strict order on canonical fixed-width UTC ISO-8601 timestamp strings
(lexicographic, which on that form coincides with chronological order — the
order PostgreSQL uses for `TIMESTAMP WITH TIME ZONE` values). -/
def tsLt (a b : String) : Bool :=
  charListLt a.toList b.toList

/-- Physical insert into `time_logs`.

* `server` (PostgreSQL, `schema.sql` lines 461-483): the table carries
  `CONSTRAINT valid_time_range CHECK (end_time > start_time)` and
  `CONSTRAINT valid_duration CHECK (duration_ms > 0)`; a violating insert makes
  the query throw and no row is written.  Timestamps are compared
  chronologically, which on the canonical fixed-width UTC string form coincides
  with lexicographic order.
* `embedded` (SQLite, `config/database-sqlite.js` / `init-sqlite-db` script):
  the `time_logs` DDL declares no CHECK constraint at all, so every row is
  accepted. -/
def insertTimeLogRow (b : Backend) (row : TimeLogRow) (tbl : List TimeLogRow) :
    Except String (List TimeLogRow) :=
  match b with
  | .server =>
    if tsLt row.start_time row.end_time && decide (0 < row.duration_ms) then
      .ok (tbl ++ [row])
    else
      .error "violates check constraint"
  | .embedded => .ok (tbl ++ [row])

/-- Response of `POST /api/log/time`: 400 validation failure, the two 403
ownership rejections, 500 for a storage error caught by the `catch` block, and
201 on success. -/
inductive CreateResp where
  | validationFailed
  | projectForbidden
  | taskForbidden
  | serverError
  | created (id : String)
  deriving Repr, DecidableEq

/-- The `time_logs` row built by the INSERT of `POST /api/log/time`
(`routes/timeLogs.js` lines 78-99): caller-scoped ids, the request's fields,
and the schema defaults `status = 'pending'`, no approver. -/
def newTimeLogRow (user : Actor) (req : TimeLogCreateReq) (newId now : String) : TimeLogRow :=
  { id := newId, organization_id := user.organizationId, user_id := user.id,
    project_id := req.projectId, task_id := req.taskId,
    start_time := req.startTime, end_time := req.endTime,
    duration_ms := req.durationMs, duration_hours := req.durationHours,
    paused_duration_ms := req.pausedDurationMs,
    activity_score := req.activityScore, description := req.description,
    is_billable := req.isBillable, status := "pending",
    approved_by := none, approved_at := none,
    created_at := now, updated_at := now, deleted_at := none }

/-- `POST /api/log/time` handler (`routes/timeLogs.js` lines 28-125): validator
chain, then the in-handler project and task organization checks (lines 53-75),
then the INSERT.  `newId` is the id the database generates for the row, `now`
its `CURRENT_TIMESTAMP`. -/
def createTimeLog (b : Backend) (user : Actor) (req : TimeLogCreateReq)
    (newId now : String) (db : DB) : CreateResp × DB :=
  if ¬ validTimeLogBody req then
    (.validationFailed, db)
  else
    let projectCheck := db.projects.filter (fun r =>
      decide (r.id = req.projectId ∧ r.organization_id = user.organizationId ∧ r.deleted_at = none))
    if projectCheck.length = 0 then
      (.projectForbidden, db)
    else
      let taskCheck := db.tasks.filter (fun r =>
        decide (r.id = req.taskId ∧ r.organization_id = user.organizationId ∧ r.deleted_at = none))
      if taskCheck.length = 0 then
        (.taskForbidden, db)
      else
        match insertTimeLogRow b (newTimeLogRow user req newId now) db.time_logs with
        | .error _ => (.serverError, db)
        | .ok tbl => (.created newId, { db with time_logs := tbl })

/-! ## Screenshot fetch — `routes/screenshots.js` `GET /screenshot/:id` -/

/-- Response of `GET /api/log/screenshot/:id`: 404 "Screenshot not found" or the
metadata row (the presigned URL generation is an external S3 collaborator). -/
inductive ScreenshotResp where
  | notFound
  | ok (row : ScreenshotRow)
  deriving Repr, DecidableEq

/-- `GET /api/log/screenshot/:id` handler (`routes/screenshots.js` lines
161-214): `SELECT ... FROM screenshots WHERE id = $1 AND organization_id = $2
AND deleted_at IS NULL`, 404 when empty.  A read: the database is untouched. -/
def getScreenshot (user : Actor) (screenshotId : String) (db : DB) : ScreenshotResp :=
  match db.screenshots.filter (fun r =>
      decide (r.id = screenshotId ∧ r.organization_id = user.organizationId ∧ r.deleted_at = none)) with
  | [] => .notFound
  | r :: _ => .ok r

end TimeTracker

namespace TimeTracker

/-- **C5** — For every call `validateOrganizationResource(req, resourceId, table)`:
if no non-deleted row with that id exists, it returns invalid with message
"Resource not found"; if the row exists but its `organization_id` differs from
the actor's `organizationId`, it returns invalid with message "Resource does not
belong to your organization"; otherwise it returns valid; and if the storage
lookup itself throws, the result is invalid, never valid. -/
theorem validateOrganizationResource_spec
    (actorOrgId resourceId : String) (tbl : List TenantRow) (e : String) :
    ((∀ r ∈ tbl, ¬(r.id = resourceId ∧ r.deleted_at = none)) →
       validateOrganizationResource actorOrgId resourceId (.ok tbl)
         = { valid := false, message := some "Resource not found" }) ∧
    (∀ r ∈ tbl, r.id = resourceId → r.deleted_at = none →
       r.organization_id ≠ actorOrgId →
       (∀ s ∈ tbl, s.id = resourceId → s.deleted_at = none → s = r) →
       validateOrganizationResource actorOrgId resourceId (.ok tbl)
         = { valid := false,
             message := some "Resource does not belong to your organization" }) ∧
    (∀ r ∈ tbl, r.id = resourceId → r.deleted_at = none →
       r.organization_id = actorOrgId →
       (∀ s ∈ tbl, s.id = resourceId → s.deleted_at = none → s = r) →
       validateOrganizationResource actorOrgId resourceId (.ok tbl)
         = { valid := true, message := none }) ∧
    (validateOrganizationResource actorOrgId resourceId (.error e)).valid = false := by
  refine ⟨?_, ?_, ?_, rfl⟩
  · intro habsent
    have hfilter : tbl.filter (fun r => decide (r.id = resourceId ∧ r.deleted_at = none)) = [] := by
      rw [List.filter_eq_nil_iff]
      intro r hr
      simpa using habsent r hr
    simp only [validateOrganizationResource]
    rw [hfilter]
  · intro r hr hid hdel horg huniq
    have hmem : r ∈ tbl.filter (fun r => decide (r.id = resourceId ∧ r.deleted_at = none)) := by
      rw [List.mem_filter]
      exact ⟨hr, by simp [hid, hdel]⟩
    match hcase : tbl.filter (fun r => decide (r.id = resourceId ∧ r.deleted_at = none)) with
    | [] => rw [hcase] at hmem; simp at hmem
    | s :: rest =>
      have hs : s ∈ tbl.filter (fun r => decide (r.id = resourceId ∧ r.deleted_at = none)) := by
        rw [hcase]; exact List.mem_cons_self s rest
      rw [List.mem_filter] at hs
      have hsr : s = r := huniq s hs.1 (by simpa using (of_decide_eq_true hs.2).1)
        (by simpa using (of_decide_eq_true hs.2).2)
      simp only [validateOrganizationResource]
      rw [hcase]
      simp [hsr, horg]
  · intro r hr hid hdel horg huniq
    have hmem : r ∈ tbl.filter (fun r => decide (r.id = resourceId ∧ r.deleted_at = none)) := by
      rw [List.mem_filter]
      exact ⟨hr, by simp [hid, hdel]⟩
    match hcase : tbl.filter (fun r => decide (r.id = resourceId ∧ r.deleted_at = none)) with
    | [] => rw [hcase] at hmem; simp at hmem
    | s :: rest =>
      have hs : s ∈ tbl.filter (fun r => decide (r.id = resourceId ∧ r.deleted_at = none)) := by
        rw [hcase]; exact List.mem_cons_self s rest
      rw [List.mem_filter] at hs
      have hsr : s = r := huniq s hs.1 (by simpa using (of_decide_eq_true hs.2).1)
        (by simpa using (of_decide_eq_true hs.2).2)
      simp only [validateOrganizationResource]
      rw [hcase]
      simp [hsr, horg]

/-- Witness for `validateOrganizationResource_spec` at a concrete one-row table:
the row belongs to organization "orgA", the actor is from "orgB", and the call
reports "Resource does not belong to your organization". -/
theorem validateOrganizationResource_spec_witness :
    validateOrganizationResource "orgB" "res1"
        (.ok [{ id := "res1", organization_id := "orgA", deleted_at := none }])
      = { valid := false,
          message := some "Resource does not belong to your organization" } := by
  have h := validateOrganizationResource_spec "orgB" "res1"
    [{ id := "res1", organization_id := "orgA", deleted_at := none }] "boom"
  exact h.2.1 { id := "res1", organization_id := "orgA", deleted_at := none }
    (by simp) rfl rfl (by decide) (by intro s hs h1 h2; simpa using hs)

/-- Branch equation: empty ownership lookup means 404 and an untouched state. -/
theorem approveTimeLog_filter_nil (user : Actor) (tid action now : String) (db : DB)
    (h : db.time_logs.filter (fun r =>
        decide (r.id = tid ∧ r.organization_id = user.organizationId ∧ r.deleted_at = none)) = []) :
    approveTimeLog user tid action now db = (.notFound, db) := by
  unfold approveTimeLog
  rw [h]

/-- Branch equation: a non-pending first row means the 400 conflict and an
untouched state. -/
theorem approveTimeLog_filter_conflict (user : Actor) (tid action now : String) (db : DB)
    (tl : TimeLogRow) (rest : List TimeLogRow)
    (h : db.time_logs.filter (fun r =>
        decide (r.id = tid ∧ r.organization_id = user.organizationId ∧ r.deleted_at = none))
      = tl :: rest)
    (hnp : tl.status ≠ "pending") :
    approveTimeLog user tid action now db = (.alreadyStatus tl.status, db) := by
  unfold approveTimeLog
  rw [h]
  simp [hnp]

/-- Branch equation: a pending first row means success and the mapped update. -/
theorem approveTimeLog_filter_pending (user : Actor) (tid action now : String) (db : DB)
    (tl : TimeLogRow) (rest : List TimeLogRow)
    (h : db.time_logs.filter (fun r =>
        decide (r.id = tid ∧ r.organization_id = user.organizationId ∧ r.deleted_at = none))
      = tl :: rest)
    (hp : tl.status = "pending") :
    approveTimeLog user tid action now db
      = (.ok tid (if action = "approve" then "approved" else "rejected") (some now),
         { db with time_logs := db.time_logs.map (approveUpdate user tid
             (if action = "approve" then "approved" else "rejected") now) }) := by
  unfold approveTimeLog
  rw [h]
  simp [hp]

/-- If the single-approve call succeeded, it took the success branch: the new
`time_logs` table is the mapped update for some terminal status, and the rest of
the database is untouched. -/
theorem approveTimeLog_ok_shape (user : Actor) (tid action now : String) (db : DB)
    (h : (approveTimeLog user tid action now db).1.isOk = true) :
    ∃ newStatus, (newStatus = "approved" ∨ newStatus = "rejected") ∧
      (approveTimeLog user tid action now db).2
        = { db with time_logs := db.time_logs.map (approveUpdate user tid newStatus now) } := by
  rcases hcase : db.time_logs.filter (fun r =>
      decide (r.id = tid ∧ r.organization_id = user.organizationId ∧ r.deleted_at = none))
    with _ | ⟨tl, rest⟩
  · rw [approveTimeLog_filter_nil user tid action now db hcase] at h
    simp [ApproveResp.isOk] at h
  · by_cases hp : tl.status = "pending"
    · refine ⟨if action = "approve" then "approved" else "rejected", ?_, ?_⟩
      · by_cases ha : action = "approve" <;> simp [ha]
      · rw [approveTimeLog_filter_pending user tid action now db tl rest hcase hp]
    · rw [approveTimeLog_filter_conflict user tid action now db tl rest hcase hp] at h
      simp [ApproveResp.isOk] at h

/-- **C4** — Single approve/reject on a time entry of the caller's organization:
a non-`pending` entry yields the "already <status>" conflict and the database is
unchanged; a `pending` entry succeeds, one update setting status, `approved_by`
and `approved_at` together on the entry; and once a call has succeeded, every
later approve/reject call on the same entry (by any manager) fails and changes
nothing. -/
theorem approveTimeLog_lifecycle (user : Actor) (tid action now : String) (db : DB) :
    (∀ r ∈ db.time_logs, r.id = tid → r.organization_id = user.organizationId →
       r.deleted_at = none → r.status ≠ "pending" →
       (∀ s ∈ db.time_logs, s.id = tid → s.organization_id = user.organizationId →
          s.deleted_at = none → s = r) →
       approveTimeLog user tid action now db = (.alreadyStatus r.status, db)) ∧
    (∀ r ∈ db.time_logs, r.id = tid → r.organization_id = user.organizationId →
       r.deleted_at = none → r.status = "pending" →
       (∀ s ∈ db.time_logs, s.id = tid → s.organization_id = user.organizationId →
          s.deleted_at = none → s = r) →
       (approveTimeLog user tid action now db).1.isOk = true ∧
       ∀ r' ∈ (approveTimeLog user tid action now db).2.time_logs, r'.id = tid →
         r'.status = (if action = "approve" then "approved" else "rejected") ∧
         r'.approved_by = some user.id ∧ r'.approved_at = some now) ∧
    ((approveTimeLog user tid action now db).1.isOk = true →
       ∀ (user2 : Actor) (action2 now2 : String),
         (approveTimeLog user2 tid action2 now2
            (approveTimeLog user tid action now db).2).1.isOk = false ∧
         (approveTimeLog user2 tid action2 now2
            (approveTimeLog user tid action now db).2).2
           = (approveTimeLog user tid action now db).2) := by
  refine ⟨?_, ?_, ?_⟩
  · intro r hr hid horg hdel hst huniq
    have hmem : r ∈ db.time_logs.filter (fun r =>
        decide (r.id = tid ∧ r.organization_id = user.organizationId ∧ r.deleted_at = none)) := by
      rw [List.mem_filter]
      exact ⟨hr, by simp [hid, horg, hdel]⟩
    rcases hcase : db.time_logs.filter (fun r =>
        decide (r.id = tid ∧ r.organization_id = user.organizationId ∧ r.deleted_at = none))
      with _ | ⟨s, rest⟩
    · rw [hcase] at hmem; simp at hmem
    · have hs : s ∈ db.time_logs.filter (fun r =>
          decide (r.id = tid ∧ r.organization_id = user.organizationId ∧ r.deleted_at = none)) := by
        rw [hcase]; exact List.mem_cons_self s rest
      rw [List.mem_filter] at hs
      obtain ⟨hs1, hs2⟩ := hs
      have hd := of_decide_eq_true hs2
      have hsr : s = r := huniq s hs1 hd.1 hd.2.1 hd.2.2
      rw [approveTimeLog_filter_conflict user tid action now db s rest hcase (hsr ▸ hst), hsr]
  · intro r hr hid horg hdel hst huniq
    have hmem : r ∈ db.time_logs.filter (fun r =>
        decide (r.id = tid ∧ r.organization_id = user.organizationId ∧ r.deleted_at = none)) := by
      rw [List.mem_filter]
      exact ⟨hr, by simp [hid, horg, hdel]⟩
    rcases hcase : db.time_logs.filter (fun r =>
        decide (r.id = tid ∧ r.organization_id = user.organizationId ∧ r.deleted_at = none))
      with _ | ⟨s, rest⟩
    · rw [hcase] at hmem; simp at hmem
    · have hs : s ∈ db.time_logs.filter (fun r =>
          decide (r.id = tid ∧ r.organization_id = user.organizationId ∧ r.deleted_at = none)) := by
        rw [hcase]; exact List.mem_cons_self s rest
      rw [List.mem_filter] at hs
      obtain ⟨hs1, hs2⟩ := hs
      have hd := of_decide_eq_true hs2
      have hsr : s = r := huniq s hs1 hd.1 hd.2.1 hd.2.2
      have heq := approveTimeLog_filter_pending user tid action now db s rest hcase (hsr ▸ hst)
      constructor
      · rw [heq]
        simp [ApproveResp.isOk]
      · intro r' hr' hid'
        rw [heq] at hr'
        obtain ⟨r0, hr0, hupd⟩ := List.mem_map.mp hr'
        by_cases h0 : r0.id = tid
        · rw [← hupd]
          simp [approveUpdate, h0]
        · rw [← hupd] at hid'
          simp only [approveUpdate, if_neg h0] at hid'
          exact absurd hid' h0
  · intro hok user2 action2 now2
    obtain ⟨newStatus, hterm, hdb⟩ := approveTimeLog_ok_shape user tid action now db hok
    obtain ⟨db1, hdb1⟩ : ∃ db1 : DB,
        db1 = { db with time_logs := db.time_logs.map (approveUpdate user tid newStatus now) } :=
      ⟨_, rfl⟩
    rw [hdb, ← hdb1]
    have hlogs : db1.time_logs = db.time_logs.map (approveUpdate user tid newStatus now) := by
      rw [hdb1]
    have hstatus : ∀ r' ∈ db1.time_logs, r'.id = tid → r'.status ≠ "pending" := by
      rw [hlogs]
      intro r' hr' hid'
      obtain ⟨r0, hr0, hupd⟩ := List.mem_map.mp hr'
      by_cases h0 : r0.id = tid
      · rw [← hupd]
        simp only [approveUpdate, if_pos h0]
        rcases hterm with h | h <;> simp [h]
      · rw [← hupd] at hid'
        simp only [approveUpdate, if_neg h0] at hid'
        exact absurd hid' h0
    rcases hcase2 : db1.time_logs.filter (fun r =>
        decide (r.id = tid ∧ r.organization_id = user2.organizationId ∧ r.deleted_at = none))
      with _ | ⟨tl2, rest2⟩
    · rw [approveTimeLog_filter_nil user2 tid action2 now2 db1 hcase2]
      simp [ApproveResp.isOk]
    · have htl2 : tl2 ∈ db1.time_logs.filter (fun r =>
          decide (r.id = tid ∧ r.organization_id = user2.organizationId ∧ r.deleted_at = none)) := by
        rw [hcase2]; exact List.mem_cons_self tl2 rest2
      rw [List.mem_filter] at htl2
      obtain ⟨htl2m, htl2p⟩ := htl2
      have hd2 := of_decide_eq_true htl2p
      have hnp : tl2.status ≠ "pending" := hstatus tl2 htl2m hd2.1
      rw [approveTimeLog_filter_conflict user2 tid action2 now2 db1 tl2 rest2 hcase2 hnp]
      simp [ApproveResp.isOk]

/-- Witness for `approveTimeLog_lifecycle` on a concrete one-entry database:
the pending entry is approved and a second approval attempt fails and leaves the
state unchanged. -/
theorem approveTimeLog_lifecycle_witness :
    let user : Actor := { id := "mgr1", organizationId := "orgA", role := "manager" }
    let log : TimeLogRow :=
      { id := "log1", organization_id := "orgA", user_id := "emp1",
        project_id := "p1", task_id := "t1",
        start_time := "2024-01-01T09:00:00Z", end_time := "2024-01-01T17:00:00Z",
        duration_ms := 28800000, duration_hours := 8, paused_duration_ms := 0,
        activity_score := 85, description := none, is_billable := false,
        status := "pending", approved_by := none, approved_at := none,
        created_at := "2024-01-01T17:00:05Z", updated_at := "2024-01-01T17:00:05Z",
        deleted_at := none }
    let db : DB := { projects := [], tasks := [], time_logs := [log], screenshots := [] }
    (approveTimeLog user "log1" "approve" "2024-01-02T08:00:00Z" db).1.isOk = true ∧
    (approveTimeLog user "log1" "approve" "2024-01-03T08:00:00Z"
       (approveTimeLog user "log1" "approve" "2024-01-02T08:00:00Z" db).2).1.isOk = false := by
  intro user log db
  constructor
  · exact ((approveTimeLog_lifecycle user "log1" "approve" "2024-01-02T08:00:00Z" db).2.1
      log (by simp [db]) rfl rfl rfl rfl
      (by intro s hs h1 h2 h3; simpa [db] using hs)).1
  · exact ((approveTimeLog_lifecycle user "log1" "approve" "2024-01-02T08:00:00Z" db).2.2
      (by decide) user "approve" "2024-01-03T08:00:00Z").1

/-- Branch equation: an empty project ownership lookup means the 403 "Project
not found or does not belong to your organization" and an untouched state. -/
theorem createTimeLog_project_forbidden (b : Backend) (user : Actor)
    (req : TimeLogCreateReq) (newId now : String) (db : DB)
    (hvalid : validTimeLogBody req = true)
    (hproj : db.projects.filter (fun r =>
        decide (r.id = req.projectId ∧ r.organization_id = user.organizationId ∧ r.deleted_at = none)) = []) :
    createTimeLog b user req newId now db = (.projectForbidden, db) := by
  unfold createTimeLog
  rw [hvalid, hproj]
  simp

/-- Branch equation: an empty task ownership lookup means the 403 "Task not
found or does not belong to your organization" and an untouched state. -/
theorem createTimeLog_task_forbidden_eq (b : Backend) (user : Actor)
    (req : TimeLogCreateReq) (newId now : String) (db : DB)
    (hvalid : validTimeLogBody req = true)
    (hproj : (db.projects.filter (fun r =>
        decide (r.id = req.projectId ∧ r.organization_id = user.organizationId ∧ r.deleted_at = none))).length ≠ 0)
    (htask : db.tasks.filter (fun r =>
        decide (r.id = req.taskId ∧ r.organization_id = user.organizationId ∧ r.deleted_at = none)) = []) :
    createTimeLog b user req newId now db = (.taskForbidden, db) := by
  unfold createTimeLog
  rw [hvalid]
  rw [if_neg (not_not_intro rfl), if_neg hproj, if_pos (by rw [htask]; rfl)]

/-- **C1** — Cross-organization references are rejected, not merely filtered:
for a resource owned by organization `A` and an actor from a different
organization, approving a time entry yields 404 and changes nothing, creating a
time log against the foreign project yields 403 and changes nothing, fetching a
foreign screenshot yields 404 (the fetch is a pure read), and creating a time
log against an owned project but the foreign task fails the `taskCheck` of
`routes/timeLogs.js` lines 65-75 with 403, changing nothing. -/
theorem crossOrganizationAccess_rejected (db : DB) (actor : Actor) (A : String)
    (hA : A ≠ actor.organizationId) :
    (∀ tid action now, (∀ r ∈ db.time_logs, r.id = tid → r.organization_id = A) →
       approveTimeLog actor tid action now db = (.notFound, db)) ∧
    (∀ (b : Backend) (req : TimeLogCreateReq) (newId now : String),
       validTimeLogBody req = true →
       (∀ r ∈ db.projects, r.id = req.projectId → r.organization_id = A) →
       createTimeLog b actor req newId now db = (.projectForbidden, db)) ∧
    (∀ sid, (∀ r ∈ db.screenshots, r.id = sid → r.organization_id = A) →
       getScreenshot actor sid db = .notFound) ∧
    (∀ (b : Backend) (req : TimeLogCreateReq) (newId now : String),
       validTimeLogBody req = true →
       (db.projects.filter (fun r =>
           decide (r.id = req.projectId ∧ r.organization_id = actor.organizationId ∧
             r.deleted_at = none))).length ≠ 0 →
       (∀ r ∈ db.tasks, r.id = req.taskId → r.organization_id = A) →
       createTimeLog b actor req newId now db = (.taskForbidden, db)) := by
  refine ⟨?_, ?_, ?_, ?_⟩
  · intro tid action now hown
    apply approveTimeLog_filter_nil
    rw [List.filter_eq_nil_iff]
    intro r hr
    simp only [decide_eq_true_eq, not_and]
    intro hid horg _
    exact hA ((hown r hr hid).symm.trans horg)
  · intro b req newId now hvalid hown
    apply createTimeLog_project_forbidden _ _ _ _ _ _ hvalid
    rw [List.filter_eq_nil_iff]
    intro r hr
    simp only [decide_eq_true_eq, not_and]
    intro hid horg _
    exact hA ((hown r hr hid).symm.trans horg)
  · intro sid hown
    have hfil : db.screenshots.filter (fun r =>
        decide (r.id = sid ∧ r.organization_id = actor.organizationId ∧ r.deleted_at = none)) = [] := by
      rw [List.filter_eq_nil_iff]
      intro r hr
      simp only [decide_eq_true_eq, not_and]
      intro hid horg _
      exact hA ((hown r hr hid).symm.trans horg)
    unfold getScreenshot
    rw [hfil]
  · intro b req newId now hvalid hproj hown
    apply createTimeLog_task_forbidden_eq _ _ _ _ _ _ hvalid hproj
    rw [List.filter_eq_nil_iff]
    intro r hr
    simp only [decide_eq_true_eq, not_and]
    intro hid horg _
    exact hA ((hown r hr hid).symm.trans horg)

/-- Witness for `crossOrganizationAccess_rejected` on a concrete database whose
project, task, time entry and screenshot all belong to "orgA", accessed by a
manager of "orgB": approve gives 404 leaving the state intact, creation against
the foreign project gives 403 leaving the state intact, the screenshot fetch
gives 404, and creation against the caller's own project but the foreign task
gives the task 403 leaving the state intact. -/
theorem crossOrganizationAccess_rejected_witness :
    let actor : Actor := { id := "mgrB", organizationId := "orgB", role := "manager" }
    let log : TimeLogRow :=
      { id := "log1", organization_id := "orgA", user_id := "empA",
        project_id := "11111111-1111-1111-1111-111111111111",
        task_id := "22222222-2222-2222-2222-222222222222",
        start_time := "2024-01-01T09:00:00Z", end_time := "2024-01-01T17:00:00Z",
        duration_ms := 28800000, duration_hours := 8, paused_duration_ms := 0,
        activity_score := 85, description := none, is_billable := false,
        status := "pending", approved_by := none, approved_at := none,
        created_at := "2024-01-01T17:00:05Z", updated_at := "2024-01-01T17:00:05Z",
        deleted_at := none }
    let db : DB :=
      { projects := [{ id := "11111111-1111-1111-1111-111111111111",
                       organization_id := "orgA", deleted_at := none },
                     { id := "33333333-3333-3333-3333-333333333333",
                       organization_id := "orgB", deleted_at := none }],
        tasks := [{ id := "22222222-2222-2222-2222-222222222222",
                    organization_id := "orgA",
                    project_id := "11111111-1111-1111-1111-111111111111",
                    deleted_at := none }],
        time_logs := [log],
        screenshots := [{ id := "shot1", organization_id := "orgA", user_id := "empA",
                          time_log_id := some "log1", s3_key := "k", s3_url := "u",
                          file_size := 100, mime_type := "image/png",
                          captured_at := "2024-01-01T10:00:00Z",
                          created_at := "2024-01-01T10:00:01Z", deleted_at := none }] }
    let req : TimeLogCreateReq :=
      { projectId := "11111111-1111-1111-1111-111111111111",
        taskId := "22222222-2222-2222-2222-222222222222",
        startTime := "2024-01-02T09:00:00Z", endTime := "2024-01-02T10:00:00Z",
        durationMs := 3600000, durationHours := 1, pausedDurationMs := 0,
        activityScore := 50, description := none, isBillable := false }
    let reqT : TimeLogCreateReq :=
      { req with projectId := "33333333-3333-3333-3333-333333333333" }
    approveTimeLog actor "log1" "approve" "2024-01-02T08:00:00Z" db = (.notFound, db) ∧
    createTimeLog .embedded actor req "newlog" "2024-01-02T10:00:01Z" db = (.projectForbidden, db) ∧
    getScreenshot actor "shot1" db = .notFound ∧
    createTimeLog .embedded actor reqT "newlog2" "2024-01-02T10:00:02Z" db = (.taskForbidden, db) := by
  intro actor log db req reqT
  have h := crossOrganizationAccess_rejected db actor "orgA" (by decide)
  refine ⟨?_, ?_, ?_, ?_⟩
  · exact h.1 "log1" "approve" "2024-01-02T08:00:00Z"
      (by intro r hr hid; simp [db] at hr; simp [hr, log])
  · refine h.2.1 .embedded req "newlog" "2024-01-02T10:00:01Z" (by decide) ?_
    intro r hr hid
    simp [db] at hr
    rcases hr with h1 | h1
    · simp [h1]
    · rw [h1] at hid
      exact absurd hid (by decide)
  · exact h.2.2.1 "shot1"
      (by intro r hr hid; simp [db] at hr; simp [hr])
  · exact h.2.2.2 .embedded reqT "newlog2" "2024-01-02T10:00:02Z" (by decide) (by decide)
      (by intro r hr hid; simp [db] at hr; simp [hr])

/-- Branch equation: when the verified row count differs from the number of
supplied ids, bulk approval rejects with the ownership 400 and an untouched
state. -/
theorem bulkApprove_notOwned_eq (user : Actor) (ids : List String)
    (action now : String) (db : DB)
    (h : (bulkVerify user ids db).length ≠ ids.length) :
    bulkApprove user ids action now db = (.notOwned, db) := by
  unfold bulkApprove
  rw [if_pos h]

/-- Rows of a table whose id column is duplicate-free are determined by their
id. -/
theorem timeLog_eq_of_id_eq {tbl : List TimeLogRow}
    (hnd : (tbl.map TimeLogRow.id).Nodup) {r s : TimeLogRow}
    (hr : r ∈ tbl) (hs : s ∈ tbl) (h : r.id = s.id) : r = s :=
  List.inj_on_of_nodup_map hnd hr hs h

/-- **C3** — Bulk all-or-nothing existence check: if any supplied id has no
matching live row of the caller's organization (missing, soft-deleted, or
foreign), the whole bulk call reports the ownership failure and no time entry
is modified. -/
theorem bulkApprove_allOrNothing (user : Actor) (ids : List String)
    (action now : String) (db : DB)
    (hnd : (db.time_logs.map TimeLogRow.id).Nodup)
    (bad : String) (hbadmem : bad ∈ ids)
    (hbadinvalid : ∀ r ∈ db.time_logs, r.id = bad →
       ¬(r.organization_id = user.organizationId ∧ r.deleted_at = none)) :
    bulkApprove user ids action now db = (.notOwned, db) := by
  apply bulkApprove_notOwned_eq
  have hsub : List.Sublist (bulkVerify user ids db) db.time_logs :=
    List.filter_sublist _
  have hndv : ((bulkVerify user ids db).map TimeLogRow.id).Nodup :=
    hnd.sublist (hsub.map _)
  have hsubset : ∀ x ∈ (bulkVerify user ids db).map TimeLogRow.id, x ∈ ids.erase bad := by
    intro x hx
    obtain ⟨r, hr, hrx⟩ := List.mem_map.mp hx
    have hrf := List.mem_filter.mp hr
    have hd := of_decide_eq_true hrf.2
    have hxne : x ≠ bad := by
      intro he
      exact hbadinvalid r hrf.1 (hrx.trans he) hd.2
    exact (List.mem_erase_of_ne hxne).mpr (hrx ▸ hd.1)
  have h1 : ((bulkVerify user ids db).map TimeLogRow.id).length
      = (bulkVerify user ids db).length := List.length_map _ _
  have h2 : ((bulkVerify user ids db).map TimeLogRow.id).toFinset.card
      = ((bulkVerify user ids db).map TimeLogRow.id).length :=
    List.toFinset_card_of_nodup hndv
  have h3 : ((bulkVerify user ids db).map TimeLogRow.id).toFinset
      ⊆ (ids.erase bad).toFinset := by
    intro x hx
    rw [List.mem_toFinset] at hx ⊢
    exact hsubset x hx
  have h4 := Finset.card_le_card h3
  have h5 : (ids.erase bad).toFinset.card ≤ (ids.erase bad).length :=
    List.toFinset_card_le _
  have h6 : (ids.erase bad).length = ids.length - 1 :=
    List.length_erase_of_mem hbadmem
  have h7 : 0 < ids.length := List.length_pos.mpr (List.ne_nil_of_mem hbadmem)
  omega

/-- Witness for `bulkApprove_allOrNothing`: ids `[A, B, C]` where C belongs to
a foreign organization; the bulk call affects none of them and reports the
ownership failure. -/
theorem bulkApprove_allOrNothing_witness :
    let user : Actor := { id := "mgr1", organizationId := "orgA", role := "manager" }
    let mk : String → String → String → TimeLogRow := fun i org st =>
      { id := i, organization_id := org, user_id := "empA",
        project_id := "p1", task_id := "t1",
        start_time := "2024-01-01T09:00:00Z", end_time := "2024-01-01T17:00:00Z",
        duration_ms := 28800000, duration_hours := 8, paused_duration_ms := 0,
        activity_score := 85, description := none, is_billable := false,
        status := st, approved_by := none, approved_at := none,
        created_at := "2024-01-01T17:00:05Z", updated_at := "2024-01-01T17:00:05Z",
        deleted_at := none }
    let db : DB :=
      { projects := [], tasks := [],
        time_logs := [mk "logA" "orgA" "pending", mk "logB" "orgA" "pending",
                      mk "logC" "orgZ" "pending"],
        screenshots := [] }
    bulkApprove user ["logA", "logB", "logC"] "approve" "2024-01-02T09:00:00Z" db
      = (.notOwned, db) := by
  intro user mk db
  exact bulkApprove_allOrNothing user ["logA", "logB", "logC"]
    "approve" "2024-01-02T09:00:00Z" db (by decide) "logC" (by decide)
    (by decide)

/-- **C2** — The bulk approve path contradicts the claim at the spec's own
example because the update statement misnumbers its placeholders
(`src/unnamed/part_002` lines 262-277) and, on the embedded store, the verify
statement's out-of-order placeholders are destroyed by the `$k → ?` rewrite.
For ids `[A, B, C]` with A, C pending and B approved, a manager of the owning
organization approving all three: the server store updates only A, records the
time-log id `logC` — not the caller — as approver, reports `approved = 1`, and
leaves C pending; the embedded store rejects the whole call with the ownership
400 before any update.  A batch whose verified entries are all terminal is
likewise answered with a 400 error, not a skipped count. -/
theorem bulkApprove_misbinding_at_example :
    let user : Actor := { id := "mgr1", organizationId := "orgA", role := "manager" }
    let mk : String → String → Option String → Option String → TimeLogRow :=
      fun i st apBy apAt =>
      { id := i, organization_id := "orgA", user_id := "empA",
        project_id := "p1", task_id := "t1",
        start_time := "2024-01-01T09:00:00Z", end_time := "2024-01-01T17:00:00Z",
        duration_ms := 28800000, duration_hours := 8, paused_duration_ms := 0,
        activity_score := 85, description := none, is_billable := false,
        status := st, approved_by := apBy, approved_at := apAt,
        created_at := "2024-01-01T17:00:05Z", updated_at := "2024-01-01T17:00:05Z",
        deleted_at := none }
    let db : DB :=
      { projects := [], tasks := [],
        time_logs := [mk "logA" "pending" none none,
                      mk "logB" "approved" (some "mgr0") (some "2024-01-01T18:00:00Z"),
                      mk "logC" "pending" none none],
        screenshots := [] }
    let dbTerminal : DB :=
      { projects := [], tasks := [],
        time_logs := [mk "logB" "approved" (some "mgr0") (some "2024-01-01T18:00:00Z")],
        screenshots := [] }
    bulkApprove user ["logA", "logB", "logC"] "approve" "2024-01-02T09:00:00Z" db
      = (.ok 1 3 1,
         { db with time_logs := [
             { mk "logA" "pending" none none with
                 status := "approved", approved_by := some "logC",
                 approved_at := some "2024-01-02T09:00:00Z",
                 updated_at := "2024-01-02T09:00:00Z" },
             mk "logB" "approved" (some "mgr0") (some "2024-01-01T18:00:00Z"),
             mk "logC" "pending" none none] }) ∧
    bulkApproveEmbedded user ["logA", "logB", "logC"] "approve"
        "2024-01-02T09:00:00Z" db
      = (.notOwned, db) ∧
    bulkApprove user ["logB"] "approve" "2024-01-02T09:00:00Z" dbTerminal
      = (.noPending, dbTerminal) := by
  intro user mk db dbTerminal
  exact ⟨by decide, by decide, by decide⟩

/-- Branch equation: a failed validator chain means the 400 and an untouched
state. -/
theorem createTimeLog_invalid_eq (b : Backend) (user : Actor)
    (req : TimeLogCreateReq) (newId now : String) (db : DB)
    (h : validTimeLogBody req = false) :
    createTimeLog b user req newId now db = (.validationFailed, db) := by
  unfold createTimeLog
  rw [h]
  simp

/-- Branch equation: when the validators and both ownership checks pass, the
outcome is decided by the physical insert. -/
theorem createTimeLog_insert_eq (b : Backend) (user : Actor)
    (req : TimeLogCreateReq) (newId now : String) (db : DB)
    (hvalid : validTimeLogBody req = true)
    (hproj : (db.projects.filter (fun r =>
        decide (r.id = req.projectId ∧ r.organization_id = user.organizationId ∧ r.deleted_at = none))).length ≠ 0)
    (htask : (db.tasks.filter (fun r =>
        decide (r.id = req.taskId ∧ r.organization_id = user.organizationId ∧ r.deleted_at = none))).length ≠ 0) :
    createTimeLog b user req newId now db
      = (match insertTimeLogRow b (newTimeLogRow user req newId now) db.time_logs with
         | .error _ => (.serverError, db)
         | .ok tbl => (.created newId, { db with time_logs := tbl })) := by
  unfold createTimeLog
  rw [hvalid]
  rw [if_neg (not_not_intro rfl), if_neg hproj, if_neg htask]

/-- **C7 (counterexample)** — The claim says a creation request whose end time
is not strictly after its start time is rejected before any row is written "on
both the server-store and embedded-store backends".  Concretely false on the
embedded store: the SQLite `time_logs` schema has no CHECK constraints and the
route validators never compare the two timestamps, so a request with
`endTime < startTime` is answered 201 and the row is written. -/
theorem createTimeLog_embedded_reversed_interval :
    let user : Actor := { id := "empA", organizationId := "orgA", role := "employee" }
    let db : DB :=
      { projects := [{ id := "11111111-1111-1111-1111-111111111111",
                       organization_id := "orgA", deleted_at := none },
                     { id := "33333333-3333-3333-3333-333333333333",
                       organization_id := "orgB", deleted_at := none }],
        tasks := [{ id := "22222222-2222-2222-2222-222222222222",
                    organization_id := "orgA",
                    project_id := "11111111-1111-1111-1111-111111111111",
                    deleted_at := none }],
        time_logs := [], screenshots := [] }
    let req : TimeLogCreateReq :=
      { projectId := "11111111-1111-1111-1111-111111111111",
        taskId := "22222222-2222-2222-2222-222222222222",
        startTime := "2024-01-01T17:00:00Z", endTime := "2024-01-01T09:00:00Z",
        durationMs := 28800000, durationHours := 8, pausedDurationMs := 0,
        activityScore := 85, description := none, isBillable := false }
    (createTimeLog .embedded user req "newlog" "2024-01-01T17:00:05Z" db).1
        = .created "newlog" ∧
    (createTimeLog .embedded user req "newlog" "2024-01-01T17:00:05Z" db).2.time_logs
        = [newTimeLogRow user req "newlog" "2024-01-01T17:00:05Z"] ∧
    tsLt req.endTime req.startTime = true := by
  intro user db req
  exact ⟨by decide, by decide, by decide⟩

/-- **C7 (amended)** — A non-positive requested duration is rejected by the
validator chain before any row is written, on both backends; a request whose
end time is not strictly after its start time is rejected with no row written
on the *server-store* backend (the `valid_time_range` CHECK constraint), while
the embedded store accepts it (see
`createTimeLog_embedded_reversed_interval`). -/
theorem createTimeLog_invariant_enforcement (b : Backend) (user : Actor)
    (req : TimeLogCreateReq) (newId now : String) (db : DB) :
    (req.durationMs ≤ 0 →
       createTimeLog b user req newId now db = (.validationFailed, db)) ∧
    (tsLt req.startTime req.endTime = false →
       (createTimeLog .server user req newId now db).2 = db ∧
       ∀ i, (createTimeLog .server user req newId now db).1 ≠ .created i) := by
  constructor
  · intro hdur
    apply createTimeLog_invalid_eq
    have hd : decide (1 ≤ req.durationMs) = false := by
      rw [decide_eq_false_iff_not]
      omega
    unfold validTimeLogBody
    simp [hd]
  · intro hts
    by_cases hv : validTimeLogBody req = true
    · by_cases hp : (db.projects.filter (fun r =>
          decide (r.id = req.projectId ∧ r.organization_id = user.organizationId ∧ r.deleted_at = none))).length = 0
      · rw [createTimeLog_project_forbidden .server user req newId now db hv
          (List.length_eq_zero.mp hp)]
        exact ⟨rfl, fun i h => CreateResp.noConfusion h⟩
      · by_cases ht : (db.tasks.filter (fun r =>
            decide (r.id = req.taskId ∧ r.organization_id = user.organizationId ∧ r.deleted_at = none))).length = 0
        · rw [createTimeLog_task_forbidden_eq .server user req newId now db hv hp
            (List.length_eq_zero.mp ht)]
          exact ⟨rfl, fun i h => CreateResp.noConfusion h⟩
        · rw [createTimeLog_insert_eq .server user req newId now db hv hp ht]
          have hins : insertTimeLogRow .server (newTimeLogRow user req newId now) db.time_logs
              = .error "violates check constraint" := by
            unfold insertTimeLogRow
            simp [newTimeLogRow, hts]
          rw [hins]
          exact ⟨rfl, fun i h => CreateResp.noConfusion h⟩
    · rw [createTimeLog_invalid_eq .server user req newId now db
        (eq_false_of_ne_true hv)]
      exact ⟨rfl, fun i h => CreateResp.noConfusion h⟩

/-- Witness for `createTimeLog_invariant_enforcement`: a zero duration is
rejected by validation on the embedded backend, and a reversed interval
writes no row on the server backend. -/
theorem createTimeLog_invariant_enforcement_witness :
    let user : Actor := { id := "empA", organizationId := "orgA", role := "employee" }
    let db : DB :=
      { projects := [{ id := "11111111-1111-1111-1111-111111111111",
                       organization_id := "orgA", deleted_at := none },
                     { id := "33333333-3333-3333-3333-333333333333",
                       organization_id := "orgB", deleted_at := none }],
        tasks := [{ id := "22222222-2222-2222-2222-222222222222",
                    organization_id := "orgA",
                    project_id := "11111111-1111-1111-1111-111111111111",
                    deleted_at := none }],
        time_logs := [], screenshots := [] }
    let reqZero : TimeLogCreateReq :=
      { projectId := "11111111-1111-1111-1111-111111111111",
        taskId := "22222222-2222-2222-2222-222222222222",
        startTime := "2024-01-01T09:00:00Z", endTime := "2024-01-01T17:00:00Z",
        durationMs := 0, durationHours := 0, pausedDurationMs := 0,
        activityScore := 85, description := none, isBillable := false }
    let reqRev : TimeLogCreateReq :=
      { projectId := "11111111-1111-1111-1111-111111111111",
        taskId := "22222222-2222-2222-2222-222222222222",
        startTime := "2024-01-01T17:00:00Z", endTime := "2024-01-01T09:00:00Z",
        durationMs := 28800000, durationHours := 8, pausedDurationMs := 0,
        activityScore := 85, description := none, isBillable := false }
    createTimeLog .embedded user reqZero "newlog" "2024-01-01T17:00:05Z" db
        = (.validationFailed, db) ∧
    (createTimeLog .server user reqRev "newlog" "2024-01-01T17:00:05Z" db).2 = db := by
  intro user db reqZero reqRev
  constructor
  · exact (createTimeLog_invariant_enforcement .embedded user reqZero
      "newlog" "2024-01-01T17:00:05Z" db).1 (by decide)
  · exact ((createTimeLog_invariant_enforcement .server user reqRev
      "newlog" "2024-01-01T17:00:05Z" db).2 (by decide)).1

/-! ## Embedded store: encrypting write path and Sync Reader —
`config/database-sqlite.js` (`insertTimeLog`, `getPendingSyncLogs`) -/

/-- A SQLite cell value as the embedded store stores it: text, numeric, NULL —
or ciphertext.  Modelled from the spec: the Field Codec (`services/crypto.js`)
is not among the sources (only its callers in `config/database-sqlite.js`
are), and §4.1 specifies it only as a symmetric pair with
`decrypt(encrypt(x)) = x` for every supported field value, ciphertext being an
opaque string; the `cipher` constructor models that opaque ciphertext. -/
inductive FieldValue where
  | text (v : String)
  | num (v : Rat)
  | null
  | cipher (plain : FieldValue)
  deriving Repr, DecidableEq

/-- Modelled from the spec: `encrypt` of the absent `services/crypto.js`,
specified in §4.1 as turning a field value into its ciphertext
representation. -/
def encryptField (v : FieldValue) : FieldValue :=
  .cipher v

/-- Modelled from the spec: `decrypt` of the absent `services/crypto.js`,
specified in §4.1 as the exact inverse of `encrypt`. -/
def decryptField : FieldValue → FieldValue
  | .cipher v => v
  | v => v

/-- A stored row of the embedded store, as the JS object the SQLite driver
returns: an association list from column name to value. -/
abbrev Rec := List (String × FieldValue)

/-- `encryptFields(record, fieldNames)`: copy the record, replacing each named
field's value by its ciphertext (§4.1; call sites in
`config/database-sqlite.js`). -/
def encryptFields (rec : Rec) (names : List String) : Rec :=
  rec.map (fun p => if p.1 ∈ names then (p.1, encryptField p.2) else p)

/-- `decryptFields(record, fieldNames)`: copy the record, replacing each named
field's value by its decryption. -/
def decryptFields (rec : Rec) (names : List String) : Rec :=
  rec.map (fun p => if p.1 ∈ names then (p.1, decryptField p.2) else p)

/-- Column access on a stored row (`row.col` in JS); an absent column reads as
SQL NULL. -/
def recGet (rec : Rec) (k : String) : FieldValue :=
  match rec.find? (fun p => p.1 == k) with
  | some p => p.2
  | none => .null

/-- `WHERE deleted_at IS NULL` on a stored row. -/
def recAlive (rec : Rec) : Bool :=
  recGet rec "deleted_at" == .null

/-- The optional `AND organization_id = ?` filter of `getPendingSyncLogs`. -/
def recOrgMatch (orgFilter : Option String) (rec : Rec) : Bool :=
  match orgFilter with
  | none => true
  | some org => recGet rec "organization_id" == .text org

/-- The `created_at` sort key of `ORDER BY created_at DESC` (a text timestamp
in the SQLite schema). -/
def recCreatedAt (rec : Rec) : String :=
  match recGet rec "created_at" with
  | .text s => s
  | _ => ""

/-- Insert into a list sorted by `recCreatedAt` descending (the engine's
`ORDER BY created_at DESC`). -/
def insertDesc (x : Rec) : List Rec → List Rec
  | [] => [x]
  | y :: ys =>
    if tsLt (recCreatedAt y) (recCreatedAt x) then
      x :: y :: ys
    else
      y :: insertDesc x ys

/-- Sort by `recCreatedAt` descending. -/
def sortByCreatedAtDesc : List Rec → List Rec
  | [] => []
  | x :: xs => insertDesc x (sortByCreatedAtDesc xs)

/-- The fields `insertTimeLog` encrypts and `getPendingSyncLogs` decrypts
(`config/database-sqlite.js`): `project_id`, `start_time`, `end_time`,
`activity_score`. -/
def timeLogEncryptedFields : List String :=
  ["project_id", "start_time", "end_time", "activity_score"]

/-- `insertTimeLog(timeLogData)` (`config/database-sqlite.js` lines 676-703):
encrypt the four sensitive fields, then `INSERT INTO time_logs` the resulting
row. -/
def insertTimeLog (timeLogData : Rec) (tbl : List Rec) : List Rec :=
  tbl ++ [encryptFields timeLogData timeLogEncryptedFields]

/-- `getPendingSyncLogs({organizationId, limit, offset})`
(`config/database-sqlite.js` lines 758-798): select live rows, optionally
filtered by organization, `ORDER BY created_at DESC LIMIT ? OFFSET ?`, then
decrypt the four sensitive fields of every returned row. -/
def getPendingSyncLogs (orgFilter : Option String) (limit offset : Nat)
    (tbl : List Rec) : List Rec :=
  let filtered := tbl.filter (fun r => recAlive r && recOrgMatch orgFilter r)
  let page := (sortByCreatedAtDesc filtered).drop offset |>.take limit
  page.map (fun r => decryptFields r timeLogEncryptedFields)

/-- `charListLt` is asymmetric. -/
theorem charListLt_asymm : ∀ a b : List Char,
    charListLt a b = true → charListLt b a = false := by
  intro a
  induction a with
  | nil =>
    intro b h
    cases b with
    | nil => simp [charListLt] at h
    | cons y ys => simp [charListLt]
  | cons x xs ih =>
    intro b h
    cases b with
    | nil => simp [charListLt] at h
    | cons y ys =>
      by_cases h1 : charLtB x y = true
      · have h2 : charLtB y x = false := by
          simp only [charLtB, decide_eq_true_eq] at h1
          simp only [charLtB, decide_eq_false_iff_not]
          omega
        simp [charListLt, h2, h1]
      · by_cases h2 : charLtB y x = true
        · simp [charListLt, h1, h2] at h
        · simp only [charListLt, h1, h2] at h ⊢
          simp only [Bool.false_eq_true, if_false] at h ⊢
          exact ih ys h

/-- `charListLt` is transitive. -/
theorem charListLt_trans : ∀ a b c : List Char,
    charListLt a b = true → charListLt b c = true → charListLt a c = true := by
  intro a
  induction a with
  | nil =>
    intro b c hab hbc
    cases b with
    | nil => simp [charListLt] at hab
    | cons y ys =>
      cases c with
      | nil => simp [charListLt] at hbc
      | cons z zs => simp [charListLt]
  | cons x xs ih =>
    intro b c hab hbc
    cases b with
    | nil => simp [charListLt] at hab
    | cons y ys =>
      cases c with
      | nil => simp [charListLt] at hbc
      | cons z zs =>
        simp only [charListLt] at hab hbc ⊢
        by_cases h1 : charLtB x y = true
        · by_cases h2 : charLtB y z = true
          · have hxz : charLtB x z = true := by
              simp only [charLtB, decide_eq_true_eq] at h1 h2 ⊢
              omega
            rw [hxz, if_pos rfl]
          · have h2' := eq_false_of_ne_true h2
            by_cases h3 : charLtB z y = true
            · rw [h2', h3] at hbc
              simp at hbc
            · have h3' := eq_false_of_ne_true h3
              have hxz : charLtB x z = true := by
                simp only [charLtB, decide_eq_true_eq,
                  decide_eq_false_iff_not] at h1 h2' h3' ⊢
                omega
              rw [hxz, if_pos rfl]
        · have h1' := eq_false_of_ne_true h1
          by_cases h4 : charLtB y x = true
          · rw [h1', h4] at hab
            simp at hab
          · have h4' := eq_false_of_ne_true h4
            rw [h1', h4'] at hab
            simp only [Bool.false_eq_true, if_false] at hab
            by_cases h2 : charLtB y z = true
            · have hxz : charLtB x z = true := by
                simp only [charLtB, decide_eq_true_eq,
                  decide_eq_false_iff_not] at h1' h4' h2 ⊢
                omega
              rw [hxz, if_pos rfl]
            · have h2' := eq_false_of_ne_true h2
              by_cases h3 : charLtB z y = true
              · rw [h2', h3] at hbc
                simp at hbc
              · have h3' := eq_false_of_ne_true h3
                rw [h2', h3'] at hbc
                simp only [Bool.false_eq_true, if_false] at hbc
                have hxz1 : charLtB x z = false := by
                  simp only [charLtB, decide_eq_true_eq,
                    decide_eq_false_iff_not] at h1' h4' h2' h3' ⊢
                  omega
                have hxz2 : charLtB z x = false := by
                  simp only [charLtB, decide_eq_true_eq,
                    decide_eq_false_iff_not] at h1' h4' h2' h3' ⊢
                  omega
                rw [hxz1, hxz2]
                simp only [Bool.false_eq_true, if_false]
                exact ih ys zs hab hbc

/-- Anything in `insertDesc x l` is `x` or was in `l`. -/
theorem mem_insertDesc {x z : Rec} :
    ∀ {l : List Rec}, z ∈ insertDesc x l → z = x ∨ z ∈ l := by
  intro l
  induction l with
  | nil =>
    intro h
    simp [insertDesc] at h
    exact Or.inl h
  | cons y ys ih =>
    intro h
    simp only [insertDesc] at h
    by_cases hc : tsLt (recCreatedAt y) (recCreatedAt x) = true
    · rw [if_pos hc] at h
      rcases List.mem_cons.mp h with h1 | h2
      · exact Or.inl h1
      · exact Or.inr h2
    · rw [if_neg hc] at h
      rcases List.mem_cons.mp h with h1 | h2
      · exact Or.inr (h1 ▸ List.mem_cons_self y ys)
      · rcases ih h2 with ha | hb
        · exact Or.inl ha
        · exact Or.inr (List.mem_cons_of_mem y hb)

/-- Inserting into a descending-sorted list keeps it descending-sorted. -/
theorem pairwise_insertDesc (x : Rec) :
    ∀ l : List Rec,
      l.Pairwise (fun a b => tsLt (recCreatedAt a) (recCreatedAt b) = false) →
      (insertDesc x l).Pairwise
        (fun a b => tsLt (recCreatedAt a) (recCreatedAt b) = false) := by
  intro l
  induction l with
  | nil =>
    intro _
    simp [insertDesc]
  | cons y ys ih =>
    intro h
    rw [List.pairwise_cons] at h
    obtain ⟨hy, hys⟩ := h
    simp only [insertDesc]
    by_cases hc : tsLt (recCreatedAt y) (recCreatedAt x) = true
    · rw [if_pos hc]
      rw [List.pairwise_cons]
      constructor
      · intro z hz
        rcases List.mem_cons.mp hz with h1 | h2
        · rw [h1]
          exact charListLt_asymm _ _ hc
        · cases hxz : tsLt (recCreatedAt x) (recCreatedAt z) with
          | false => rfl
          | true =>
            have hyz := charListLt_trans _ _ _ hc hxz
            have hy2 : charListLt (recCreatedAt y).toList (recCreatedAt z).toList = false :=
              hy z h2
            rw [hy2] at hyz
            exact absurd hyz (by simp)
      · rw [List.pairwise_cons]
        exact ⟨hy, hys⟩
    · rw [if_neg hc]
      rw [List.pairwise_cons]
      constructor
      · intro z hz
        rcases mem_insertDesc hz with h1 | h2
        · rw [h1]
          exact eq_false_of_ne_true hc
        · exact hy z h2
      · exact ih hys

/-- The Sync Reader's sort is descending in `created_at`. -/
theorem pairwise_sortByCreatedAtDesc :
    ∀ l : List Rec, (sortByCreatedAtDesc l).Pairwise
      (fun a b => tsLt (recCreatedAt a) (recCreatedAt b) = false) := by
  intro l
  induction l with
  | nil => simp [sortByCreatedAtDesc]
  | cons x xs ih => exact pairwise_insertDesc x _ ih

/-- Column access on a non-empty row: the head column wins. -/
theorem recGet_cons (p : String × FieldValue) (ps : Rec) (k : String) :
    recGet (p :: ps) k = if p.1 = k then p.2 else recGet ps k := by
  simp only [recGet, List.find?]
  by_cases hp : p.1 = k
  · simp [hp]
  · have hb : (p.1 == k) = false := beq_eq_false_iff_ne.mpr hp
    rw [if_neg hp, hb]

/-- Decrypting a set of fields leaves every other column untouched. -/
theorem recGet_decryptFields_not_mem (rec : Rec) (names : List String)
    (k : String) (hk : k ∉ names) :
    recGet (decryptFields rec names) k = recGet rec k := by
  induction rec with
  | nil => rfl
  | cons p ps ih =>
    rw [show decryptFields (p :: ps) names
        = (if p.1 ∈ names then (p.1, decryptField p.2) else p) :: decryptFields ps names
      from rfl]
    by_cases hmem : p.1 ∈ names
    · rw [if_pos hmem, recGet_cons, recGet_cons]
      by_cases hp : p.1 = k
      · exact absurd (hp ▸ hmem) hk
      · rw [if_neg hp, if_neg hp]
        exact ih
    · rw [if_neg hmem, recGet_cons, recGet_cons]
      by_cases hp : p.1 = k
      · rw [if_pos hp, if_pos hp]
      · rw [if_neg hp, if_neg hp]
        exact ih

/-- Round trip of the Field Codec across a record: decrypting exactly the
fields that were encrypted restores the original record bit for bit. -/
theorem decryptFields_encryptFields (rec : Rec) (names : List String) :
    decryptFields (encryptFields rec names) names = rec := by
  unfold decryptFields encryptFields
  rw [List.map_map]
  conv_rhs => rw [← List.map_id rec]
  apply List.map_congr_left
  intro p _
  by_cases h : p.1 ∈ names
  · simp [h, decryptField, encryptField]
  · simp [h]

/-- Decryption does not touch the `created_at` column (it is not one of the
four encrypted fields). -/
theorem recCreatedAt_decryptFields (r : Rec) :
    recCreatedAt (decryptFields r timeLogEncryptedFields) = recCreatedAt r := by
  unfold recCreatedAt
  rw [recGet_decryptFields_not_mem r timeLogEncryptedFields "created_at" (by decide)]

/-- **C6** — Sync read fidelity for the embedded store: (1) decrypting the
fields `insertTimeLog` encrypted is the exact inverse on every record; (2) a
record inserted through the encrypting write path, when its stored row is
reached by the Sync Reader's page, is returned as the original plaintext
record; (3) `getPendingSyncLogs` returns its records ordered by `created_at`
descending. -/
theorem syncReader_fidelity (data : Rec) (tbl : List Rec)
    (orgFilter : Option String) (limit offset : Nat) :
    decryptFields (encryptFields data timeLogEncryptedFields) timeLogEncryptedFields
        = data ∧
    (encryptFields data timeLogEncryptedFields ∈
        ((sortByCreatedAtDesc ((insertTimeLog data tbl).filter
            (fun r => recAlive r && recOrgMatch orgFilter r))).drop offset).take limit →
      data ∈ getPendingSyncLogs orgFilter limit offset (insertTimeLog data tbl)) ∧
    (getPendingSyncLogs orgFilter limit offset tbl).Pairwise
      (fun a b => tsLt (recCreatedAt a) (recCreatedAt b) = false) := by
  refine ⟨decryptFields_encryptFields data timeLogEncryptedFields, ?_, ?_⟩
  · intro hmem
    have hm : decryptFields (encryptFields data timeLogEncryptedFields)
          timeLogEncryptedFields ∈
        (((sortByCreatedAtDesc ((insertTimeLog data tbl).filter
            (fun r => recAlive r && recOrgMatch orgFilter r))).drop offset).take limit).map
          (fun r => decryptFields r timeLogEncryptedFields) :=
      List.mem_map_of_mem (fun r => decryptFields r timeLogEncryptedFields) hmem
    rw [decryptFields_encryptFields] at hm
    exact hm
  · unfold getPendingSyncLogs
    have hpage : (((sortByCreatedAtDesc (tbl.filter
          (fun r => recAlive r && recOrgMatch orgFilter r))).drop offset).take limit).Pairwise
        (fun a b => tsLt (recCreatedAt a) (recCreatedAt b) = false) :=
      (pairwise_sortByCreatedAtDesc _).sublist
        ((List.take_sublist _ _).trans (List.drop_sublist _ _))
    exact List.Pairwise.map _
      (fun a b hab => by
        rw [recCreatedAt_decryptFields, recCreatedAt_decryptFields]
        exact hab)
      hpage

/-- Witness for `syncReader_fidelity`: the spec's example entry with
`project_id = "P1"`, `start_time = 2024-01-01T09:00:00Z`,
`end_time = 2024-01-01T17:00:00Z` is inserted through the encrypting path into
an empty store — it is persisted with ciphertext in `project_id` — and the
Sync Reader returns exactly the original plaintext record. -/
theorem syncReader_fidelity_witness :
    let data : Rec :=
      [("id", .text "tl1"), ("organization_id", .text "orgA"),
       ("user_id", .text "empA"), ("project_id", .text "P1"),
       ("task_id", .text "t1"),
       ("start_time", .text "2024-01-01T09:00:00Z"),
       ("end_time", .text "2024-01-01T17:00:00Z"),
       ("duration_ms", .num 28800000), ("duration_hours", .num 8),
       ("paused_duration_ms", .num 0), ("activity_score", .num 85),
       ("description", .null), ("is_billable", .num 0),
       ("status", .text "pending"), ("approved_by", .null),
       ("approved_at", .null),
       ("created_at", .text "2024-01-01T17:00:05Z"),
       ("updated_at", .text "2024-01-01T17:00:05Z"), ("deleted_at", .null)]
    data ∈ getPendingSyncLogs none 100 0 (insertTimeLog data []) ∧
    recGet (encryptFields data timeLogEncryptedFields) "project_id"
      = .cipher (.text "P1") := by
  intro data
  constructor
  · exact (syncReader_fidelity data [] none 100 0).2.1 (by decide)
  · decide

/-! ## Encryption key derivation — `config/crypto-config.js` -/

/-- Numeric value of a hexadecimal digit. -/
def hexVal (c : Char) : Nat :=
  if c.isDigit then c.toNat - '0'.toNat
  else if 'a' ≤ c && c ≤ 'f' then c.toNat - 'a'.toNat + 10
  else if 'A' ≤ c && c ≤ 'F' then c.toNat - 'A'.toNat + 10
  else 0

/-- Successive pairs of hex digits to bytes — `Buffer.from(s, 'hex')`. -/
def hexPairsToBytes : List Char → List Nat
  | a :: b :: rest => (hexVal a * 16 + hexVal b) :: hexPairsToBytes rest
  | _ => []

/-- Hex decoding of a string into bytes. -/
def hexDecode (s : String) : List Nat :=
  hexPairsToBytes s.toList

/-- The test `/^[0-9a-fA-F]{64}$/.test(envKey)` of `crypto-config.js` line 32. -/
def isHex64 (s : String) : Bool :=
  s.toList.length == 64 && s.toList.all isHexChar

/-- The hardcoded development key of `crypto-config.js` line 16. -/
def HARDCODED_KEY : List Nat :=
  hexDecode "0123456789abcdef0123456789abcdef0123456789abcdef0123456789abcdef"

/-! SHA-256 (FIPS 180-4), the semantics of the Node standard library call
`crypto.createHash('sha256').update(envKey).digest()` used by
`getEncryptionKey`.  32-bit words are `Nat` values reduced `% 2^32`. -/

/-- 32-bit right rotation on a word `< 2^32`. -/
def rotr32 (n x : Nat) : Nat :=
  x / 2 ^ n + x % 2 ^ n * 2 ^ (32 - n)

/-- Logical right shift. -/
def shr32 (n x : Nat) : Nat :=
  x / 2 ^ n

/-- Three-way XOR. -/
def xor3 (a b c : Nat) : Nat :=
  Nat.xor (Nat.xor a b) c

/-- SHA-256 Σ₀. -/
def bsig0 (x : Nat) : Nat := xor3 (rotr32 2 x) (rotr32 13 x) (rotr32 22 x)

/-- SHA-256 Σ₁. -/
def bsig1 (x : Nat) : Nat := xor3 (rotr32 6 x) (rotr32 11 x) (rotr32 25 x)

/-- SHA-256 σ₀. -/
def ssig0 (x : Nat) : Nat := xor3 (rotr32 7 x) (rotr32 18 x) (shr32 3 x)

/-- SHA-256 σ₁. -/
def ssig1 (x : Nat) : Nat := xor3 (rotr32 17 x) (rotr32 19 x) (shr32 10 x)

/-- SHA-256 Ch. -/
def sha256Ch (x y z : Nat) : Nat :=
  Nat.xor (Nat.land x y) (Nat.land (Nat.xor x 4294967295) z)

/-- SHA-256 Maj. -/
def sha256Maj (x y z : Nat) : Nat :=
  xor3 (Nat.land x y) (Nat.land x z) (Nat.land y z)

/-- Big-endian packing of four bytes into a 32-bit word. -/
def word32OfBytes (b0 b1 b2 b3 : Nat) : Nat :=
  ((b0 * 256 + b1) * 256 + b2) * 256 + b3

/-- Pack bytes into big-endian 32-bit words, four bytes at a time. -/
def wordsOfBytes : List Nat → List Nat
  | b0 :: b1 :: b2 :: b3 :: rest => word32OfBytes b0 b1 b2 b3 :: wordsOfBytes rest
  | _ => []

/-- The 64 SHA-256 round constants (FIPS 180-4 §4.2.2), packed from their
standard hex listing. -/
def sha256K : List Nat :=
  wordsOfBytes (hexDecode
    ("428a2f9871374491b5c0fbcfe9b5dba53956c25b59f111f1923f82a4ab1c5ed5d807aa9812835b01243185be550c7dc372be5d7480deb1fe9bdc06a7c19bf174" ++
     "e49b69c1efbe47860fc19dc6240ca1cc2de92c6f4a7484aa5cb0a9dc76f988da983e5152a831c66db00327c8bf597fc7c6e00bf3d5a7914706ca635114292967" ++
     "27b70a852e1b21384d2c6dfc53380d13650a7354766a0abb81c2c92e92722c85a2bfe8a1a81a664bc24b8b70c76c51a3d192e819d6990624f40e3585106aa070" ++
     "19a4c1161e376c082748774c34b0bcb5391c0cb34ed8aa4a5b9cca4f682e6ff3748f82ee78a5636f84c878148cc7020890befffaa4506cebbef9a3f7c67178f2"))

/-- The eight SHA-256 working registers. -/
structure Sha256State where
  ra : Nat
  rb : Nat
  rc : Nat
  rd : Nat
  re : Nat
  rf : Nat
  rg : Nat
  rh : Nat
  deriving Repr, DecidableEq

/-- The SHA-256 initial hash value (FIPS 180-4 §5.3.3), packed from its
standard hex listing. -/
def sha256H0 : Sha256State :=
  let ws := wordsOfBytes (hexDecode
    "6a09e667bb67ae853c6ef372a54ff53a510e527f9b05688c1f83d9ab5be0cd19")
  ⟨ws.getD 0 0, ws.getD 1 0, ws.getD 2 0, ws.getD 3 0,
   ws.getD 4 0, ws.getD 5 0, ws.getD 6 0, ws.getD 7 0⟩

/-- One SHA-256 compression round for a (constant, schedule-word) pair. -/
def sha256Round (s : Sha256State) (kw : Nat × Nat) : Sha256State :=
  let t1 := (s.rh + bsig1 s.re + sha256Ch s.re s.rf s.rg + kw.1 + kw.2) % 2 ^ 32
  let t2 := (bsig0 s.ra + sha256Maj s.ra s.rb s.rc) % 2 ^ 32
  ⟨(t1 + t2) % 2 ^ 32, s.ra, s.rb, s.rc, (s.rd + t1) % 2 ^ 32, s.re, s.rf, s.rg⟩

/-- Register-wise modular addition of two states. -/
def sha256Add (x y : Sha256State) : Sha256State :=
  ⟨(x.ra + y.ra) % 2 ^ 32, (x.rb + y.rb) % 2 ^ 32, (x.rc + y.rc) % 2 ^ 32,
   (x.rd + y.rd) % 2 ^ 32, (x.re + y.re) % 2 ^ 32, (x.rf + y.rf) % 2 ^ 32,
   (x.rg + y.rg) % 2 ^ 32, (x.rh + y.rh) % 2 ^ 32⟩



/-- Extend the schedule by `fuel` words (48 for SHA-256). -/
def sha256ExtendW (fuel : Nat) (ws : List Nat) : List Nat :=
  match fuel with
  | 0 => ws
  | n + 1 =>
    let t := ws.length
    let w := (ssig1 (ws.getD (t - 2) 0) + ws.getD (t - 7) 0
              + ssig0 (ws.getD (t - 15) 0) + ws.getD (t - 16) 0) % 2 ^ 32
    sha256ExtendW n (ws ++ [w])

/-- Compress one 64-byte chunk into the running hash state. -/
def sha256Chunk (hstate : Sha256State) (chunk : List Nat) : Sha256State :=
  let w := sha256ExtendW 48 (wordsOfBytes chunk)
  sha256Add hstate ((sha256K.zip w).foldl sha256Round hstate)

/-- Big-endian 8-byte encoding of the bit length. -/
def be64 (n : Nat) : List Nat :=
  [n / 2 ^ 56 % 256, n / 2 ^ 48 % 256, n / 2 ^ 40 % 256, n / 2 ^ 32 % 256,
   n / 2 ^ 24 % 256, n / 2 ^ 16 % 256, n / 2 ^ 8 % 256, n % 256]

/-- SHA-256 padding: `0x80`, zeros to 56 mod 64, then the 64-bit bit length. -/
def sha256Pad (msg : List Nat) : List Nat :=
  msg ++ 128 :: List.replicate ((119 - msg.length % 64) % 64) 0 ++ be64 (msg.length * 8)

/-- Split into 64-byte chunks, `fuel` counting the chunks. -/
def chunks64 : Nat → List Nat → List (List Nat)
  | 0, _ => []
  | n + 1, l => l.take 64 :: chunks64 n (l.drop 64)

/-- Big-endian unpacking of a 32-bit word into four bytes. -/
def word32Bytes (w : Nat) : List Nat :=
  [w / 2 ^ 24 % 256, w / 2 ^ 16 % 256, w / 2 ^ 8 % 256, w % 256]

/-- The SHA-256 digest of a byte sequence. -/
def sha256Bytes (msg : List Nat) : List Nat :=
  let padded := sha256Pad msg
  let final := (chunks64 (padded.length / 64) padded).foldl sha256Chunk sha256H0
  word32Bytes final.ra ++ word32Bytes final.rb ++ word32Bytes final.rc ++
  word32Bytes final.rd ++ word32Bytes final.re ++ word32Bytes final.rf ++
  word32Bytes final.rg ++ word32Bytes final.rh

/-- UTF-8 bytes of a string — `hash.update(envKey)` hashes the secret's UTF-8
encoding. -/
def stringToBytes (s : String) : List Nat :=
  s.toUTF8.toList.map (fun b => b.toNat)

/-- JavaScript truthiness of an environment variable: set and non-empty. -/
def envTruthy : Option String → Bool
  | none => false
  | some s => !(s == "")

/-- The result of a successful `getEncryptionKey()`: the 32-byte key, plus
whether the hardcoded-key warning was printed on the way. -/
structure KeyResult where
  key : List Nat
  warned : Bool
  deriving Repr, DecidableEq

/-- `getEncryptionKey()` (`config/crypto-config.js` lines 26-49): a truthy
`ENCRYPTION_KEY` that is 64 hex characters is hex-decoded; any other truthy
secret is digested with SHA-256; with no secret, production throws and
non-production warns and falls back to `HARDCODED_KEY`. -/
def getEncryptionKey (encryptionKeyEnv nodeEnv : Option String) :
    Except String KeyResult :=
  if envTruthy encryptionKeyEnv then
    let envKey := encryptionKeyEnv.getD ""
    if isHex64 envKey then
      .ok ⟨hexDecode envKey, false⟩
    else
      .ok ⟨sha256Bytes (stringToBytes envKey), false⟩
  else if nodeEnv == some "production" then
    .error "ENCRYPTION_KEY environment variable is required in production"
  else
    .ok ⟨HARDCODED_KEY, true⟩

/-- Hex decoding yields one byte per digit pair. -/
theorem hexPairsToBytes_length_fuel :
    ∀ (n : Nat) (l : List Char), l.length ≤ n →
      (hexPairsToBytes l).length = l.length / 2 := by
  intro n
  induction n with
  | zero =>
    intro l hl
    have hnil : l = [] := List.eq_nil_of_length_eq_zero (Nat.le_zero.mp hl)
    subst hnil
    rfl
  | succ n ih =>
    intro l hl
    match l with
    | [] => rfl
    | [a] => simp [hexPairsToBytes]
    | a :: b :: rest =>
      have hrest : rest.length ≤ n := by
        simp only [List.length_cons] at hl
        omega
      rw [show hexPairsToBytes (a :: b :: rest)
          = (hexVal a * 16 + hexVal b) :: hexPairsToBytes rest from rfl]
      simp only [List.length_cons, ih rest hrest]
      omega

/-- A SHA-256 digest is always 32 bytes. -/
theorem sha256Bytes_length (msg : List Nat) : (sha256Bytes msg).length = 32 := by
  unfold sha256Bytes
  simp [word32Bytes]

/-- **C8** — `getEncryptionKey` always yields a 32-byte key or fails: a
64-hex-character secret is returned as exactly its hex decoding; any other
configured secret is returned as its SHA-256 digest (deterministically — the
derivation is a function of the secret); no secret in production throws the
fatal configuration error; no secret outside production returns the fixed
hardcoded development key, with the warning emitted. -/
theorem getEncryptionKey_spec (encKey nodeEnv : Option String) (s : String) :
    (∀ res, getEncryptionKey encKey nodeEnv = .ok res → res.key.length = 32) ∧
    (isHex64 s = true →
       getEncryptionKey (some s) nodeEnv = .ok ⟨hexDecode s, false⟩) ∧
    (s ≠ "" → isHex64 s = false →
       getEncryptionKey (some s) nodeEnv
         = .ok ⟨sha256Bytes (stringToBytes s), false⟩) ∧
    (getEncryptionKey none (some "production")
       = .error "ENCRYPTION_KEY environment variable is required in production") ∧
    (nodeEnv ≠ some "production" →
       getEncryptionKey none nodeEnv = .ok ⟨HARDCODED_KEY, true⟩) := by
  refine ⟨?_, ?_, ?_, ?_, ?_⟩
  · intro res hres
    unfold getEncryptionKey at hres
    by_cases ht : envTruthy encKey = true
    · rw [if_pos ht] at hres
      by_cases hx : isHex64 (encKey.getD "") = true
      · rw [if_pos hx] at hres
        have hres' : (⟨hexDecode (encKey.getD ""), false⟩ : KeyResult) = res :=
          Except.ok.inj hres
        have hlen : (encKey.getD "").toList.length = 64 := by
          unfold isHex64 at hx
          have hpair := (Bool.and_eq_true _ _).mp hx
          simpa using hpair.1
        rw [← hres']
        show (hexDecode (encKey.getD "")).length = 32
        unfold hexDecode
        rw [hexPairsToBytes_length_fuel (encKey.getD "").toList.length _ (le_refl _), hlen]
      · rw [if_neg hx] at hres
        have hres' : (⟨sha256Bytes (stringToBytes (encKey.getD "")), false⟩ : KeyResult) = res :=
          Except.ok.inj hres
        rw [← hres']
        exact sha256Bytes_length _
    · rw [if_neg ht] at hres
      by_cases hp : (nodeEnv == some "production") = true
      · rw [if_pos hp] at hres
        exact absurd hres (by simp)
      · rw [if_neg hp] at hres
        have hres' : (⟨HARDCODED_KEY, true⟩ : KeyResult) = res :=
          Except.ok.inj hres
        rw [← hres']
        decide
  · intro hx
    have hne : s ≠ "" := by
      intro he
      rw [he] at hx
      exact absurd hx (by decide)
    unfold getEncryptionKey
    rw [if_pos (by simp [envTruthy, hne]), if_pos (by simpa using hx)]
    rfl
  · intro hne hx
    unfold getEncryptionKey
    rw [if_pos (by simp [envTruthy, hne]), if_neg (by simp [hx])]
    rfl
  · rfl
  · intro hne
    unfold getEncryptionKey
    rw [if_neg (by simp [envTruthy]), if_neg (by simpa using hne)]

/-- Witness for `getEncryptionKey_spec`: a concrete 64-hex secret is returned
as its 32-byte hex decoding, and the no-secret non-production fallback returns
the hardcoded key with the warning flag. -/
theorem getEncryptionKey_spec_witness :
    getEncryptionKey
        (some "00112233445566778899aabbccddeeff00112233445566778899aabbccddeeff")
        none
      = .ok ⟨hexDecode "00112233445566778899aabbccddeeff00112233445566778899aabbccddeeff",
             false⟩ ∧
    getEncryptionKey none none = .ok ⟨HARDCODED_KEY, true⟩ := by
  constructor
  · exact (getEncryptionKey_spec
      (some "00112233445566778899aabbccddeeff00112233445566778899aabbccddeeff") none
      "00112233445566778899aabbccddeeff00112233445566778899aabbccddeeff").2.1
      (by decide)
  · exact (getEncryptionKey_spec none none "x").2.2.2.2 (by decide)

/-! ## Backend Adapter placeholder contract — the Server Store's
`pool.query(text, params)` (`config/database.js`) versus the Embedded Store's
`query` (`config/database-sqlite.js` lines 563-587), whose first step is
`text.replace(/\$(\d+)/g, '?')`. -/

/-- A lexed SQL text: literal segments and positional placeholders.  `param k`
is the token `$k` matched by the rewrite regex (maximal digit munch, so `$10`
is a single token, never `$1` followed by `0`). -/
inductive SqlTok where
  | lit (s : String)
  | param (k : Nat)
  deriving Repr, DecidableEq

/-- A token of the rewritten SQLite text: literal segments and anonymous `?`
markers. -/
inductive SqliteTok where
  | lit (s : String)
  | qmark
  deriving Repr, DecidableEq

/-- A fragment of a fully bound statement: literal text or a bound parameter
value. -/
inductive SqlFrag where
  | lit (s : String)
  | val (v : String)
  deriving Repr, DecidableEq

/-- `text.replace(/\$(\d+)/g, '?')`: every placeholder becomes an anonymous
`?`; the digits are erased. -/
def rewriteSqlite (toks : List SqlTok) : List SqliteTok :=
  toks.map (fun t =>
    match t with
    | .lit s => .lit s
    | .param _ => .qmark)

/-- PostgreSQL binding: `$k` receives the k-th parameter; a dangling reference
is an engine error. -/
def bindServer (toks : List SqlTok) (params : List String) :
    Option (List SqlFrag) :=
  match toks with
  | [] => some []
  | .lit s :: rest => (bindServer rest params).map (fun r => .lit s :: r)
  | .param k :: rest =>
    match params[k - 1]? with
    | none => none
    | some v => (bindServer rest params).map (fun r => .val v :: r)

/-- SQLite binding of the rewritten text: the i-th `?` in text order receives
the i-th parameter, regardless of the digits the rewrite erased. -/
def bindSqlite (toks : List SqliteTok) (params : List String) :
    Option (List SqlFrag) :=
  match toks with
  | [] => some []
  | .lit s :: rest => (bindSqlite rest params).map (fun r => .lit s :: r)
  | .qmark :: rest =>
    match params with
    | [] => none
    | v :: vs => (bindSqlite rest vs).map (fun r => .val v :: r)

/-- The placeholder indices of a text, in text order. -/
def placeholderSeq (toks : List SqlTok) : List Nat :=
  toks.filterMap (fun t =>
    match t with
    | .param k => some k
    | .lit _ => none)

/-- Render a bound statement, quoting bound values — what the engine actually
executes. -/
def renderFrags (frags : List SqlFrag) : String :=
  match frags with
  | [] => ""
  | .lit s :: rest => s ++ renderFrags rest
  | .val v :: rest => "'" ++ v ++ "'" ++ renderFrags rest

/-- `{ rows, rowCount }` as both adapters return it. -/
structure QueryResult where
  rows : List Rec
  rowCount : Nat
  deriving Repr, DecidableEq

/-- The Server Store adapter over an abstract row engine: bind `$k`
positionally, execute, return rows plus the row count (for a SELECT, pg's
`rowCount` is the number of returned rows). -/
def serverQuery (engine : List SqlFrag → List Rec) (toks : List SqlTok)
    (params : List String) : Option QueryResult :=
  (bindServer toks params).map (fun frags =>
    { rows := engine frags, rowCount := (engine frags).length })

/-- The Embedded Store adapter over the same abstract row engine: rewrite to
`?`, bind in text order, execute, and return
`{ rows, rowCount: rows.length }` (`config/database-sqlite.js` lines
580-584). -/
def sqliteQuery (engine : List SqlFrag → List Rec) (toks : List SqlTok)
    (params : List String) : Option QueryResult :=
  (bindSqlite (rewriteSqlite toks) params).map (fun frags =>
    { rows := engine frags, rowCount := (engine frags).length })

/-- A demonstration engine that reports the statement it executed as its one
row. -/
def echoEngine (frags : List SqlFrag) : List Rec :=
  [[("executed", .text (renderFrags frags))]]

/-- **C9 (counterexample)** — The claim says the rewrite is observationally
equivalent for every text in which each placeholder `$1..$n` appears exactly
once.  Concretely false when the placeholders appear out of order: in
`... a = $2 ... b = $1` with parameters `["p1", "p2"]`, the server store binds
`a = 'p2', b = 'p1'` while the embedded store's rewrite binds the first `?`
(the `$2` position) to `p1`, executing a different statement and returning
different rows. -/
theorem placeholderRewrite_out_of_order :
    let toks : List SqlTok :=
      [.lit "SELECT * FROM t WHERE a = ", .param 2, .lit " AND b = ", .param 1]
    let params : List String := ["p1", "p2"]
    serverQuery echoEngine toks params
        = some { rows := [[("executed",
            .text "SELECT * FROM t WHERE a = 'p2' AND b = 'p1'")]], rowCount := 1 } ∧
    sqliteQuery echoEngine toks params
        = some { rows := [[("executed",
            .text "SELECT * FROM t WHERE a = 'p1' AND b = 'p2'")]], rowCount := 1 } ∧
    serverQuery echoEngine toks params ≠ sqliteQuery echoEngine toks params := by
  intro toks params
  exact ⟨by decide, by decide, by decide⟩

/-- Binding agreement, generalized over a consumed-parameter prefix: if the
remaining placeholders are exactly `k+1, k+2, ...` up to the parameter count,
the server's indexed binding coincides with SQLite's positional binding of the
remaining parameters. -/
theorem bind_agree (toks : List SqlTok) :
    ∀ (params : List String) (k : Nat),
      k ≤ params.length →
      placeholderSeq toks = List.range' (k + 1) (params.length - k) →
      bindServer toks params = bindSqlite (rewriteSqlite toks) (params.drop k) := by
  induction toks with
  | nil =>
    intro params k _ _
    rfl
  | cons t rest ih =>
    intro params k hk hseq
    cases t with
    | lit s =>
      have hseq' : placeholderSeq rest = List.range' (k + 1) (params.length - k) := by
        simpa [placeholderSeq] using hseq
      rw [show bindServer (.lit s :: rest) params
          = (bindServer rest params).map (fun r => .lit s :: r) from rfl]
      rw [show rewriteSqlite (.lit s :: rest) = .lit s :: rewriteSqlite rest from rfl]
      rw [show bindSqlite (.lit s :: rewriteSqlite rest) (params.drop k)
          = (bindSqlite (rewriteSqlite rest) (params.drop k)).map (fun r => .lit s :: r)
        from rfl]
      rw [ih params k hk hseq']
    | param j =>
      have hseq1 : j :: placeholderSeq rest = List.range' (k + 1) (params.length - k) := by
        simpa [placeholderSeq] using hseq
      match hnk : params.length - k with
      | 0 =>
        rw [hnk] at hseq1
        exact absurd hseq1 (by simp)
      | m + 1 =>
        rw [hnk, List.range'_succ (k + 1) m 1] at hseq1
        have hj : j = k + 1 := (List.cons.injEq _ _ _ _).mp hseq1 |>.1
        have hrest : placeholderSeq rest = List.range' (k + 2) m :=
          (List.cons.injEq _ _ _ _).mp hseq1 |>.2
        have hklt : k < params.length := by omega
        have hm : m = params.length - (k + 1) := by omega
        rw [show bindServer (.param j :: rest) params
            = (match params[j - 1]? with
               | none => none
               | some v => (bindServer rest params).map (fun r => .val v :: r))
          from rfl]
        rw [show rewriteSqlite (.param j :: rest) = .qmark :: rewriteSqlite rest from rfl]
        have hdrop : params.drop k = params[k] :: params.drop (k + 1) :=
          List.drop_eq_getElem_cons hklt
        rw [hdrop]
        rw [show bindSqlite (.qmark :: rewriteSqlite rest) (params[k] :: params.drop (k + 1))
            = (bindSqlite (rewriteSqlite rest) (params.drop (k + 1))).map
                (fun r => SqlFrag.val (params[k]) :: r)
          from rfl]
        have hget : params[j - 1]? = some params[k] := by
          rw [hj]
          show params[k]? = some params[k]
          exact List.getElem?_eq_getElem hklt
        rw [hget]
        rw [ih params (k + 1) (by omega) (by rw [hrest, hm])]

/-- **C9 (amended)** — The two adapters agree whenever the text's placeholders
read `$1, $2, ..., $n` in left-to-right order (each exactly once), with `n`
parameters supplied: the rewrite-then-execute of the embedded store binds every
placeholder to the same value the server store binds, and both return the
engine's rows with `rowCount` equal to the number of returned rows.  (When the
placeholders appear out of ascending order the two adapters bind different
values — see `placeholderRewrite_out_of_order`; the repository itself contains
such out-of-order texts, e.g. the bulk-approve verify and update queries of
`src/unnamed/part_002` lines 236-277, so this guarantee does **not** cover
every call site.) -/
theorem adapter_equivalence (engine : List SqlFrag → List Rec)
    (toks : List SqlTok) (params : List String)
    (hasc : placeholderSeq toks = List.range' 1 params.length) :
    serverQuery engine toks params = sqliteQuery engine toks params ∧
    ∀ res, serverQuery engine toks params = some res →
      res.rowCount = res.rows.length := by
  constructor
  · unfold serverQuery sqliteQuery
    rw [bind_agree toks params 0 (Nat.zero_le _) (by simpa using hasc)]
    rfl
  · intro res hres
    unfold serverQuery at hres
    match hbind : bindServer toks params with
    | none => rw [hbind] at hres; exact absurd hres (by simp)
    | some frags =>
      rw [hbind] at hres
      have : ({ rows := engine frags, rowCount := (engine frags).length } : QueryResult)
          = res := by simpa using hres
      rw [← this]

/-- Witness for `adapter_equivalence`: the ascending two-placeholder query
produces identical results on both adapters. -/
theorem adapter_equivalence_witness :
    let toks : List SqlTok :=
      [.lit "SELECT * FROM t WHERE a = ", .param 1, .lit " AND b = ", .param 2]
    serverQuery echoEngine toks ["p1", "p2"]
      = sqliteQuery echoEngine toks ["p1", "p2"] := by
  intro toks
  exact (adapter_equivalence echoEngine toks ["p1", "p2"] (by decide)).1

/-! ## Web activity statistics — `GET /api/reports/web-stats`
(`src/unnamed/part_003` lines 271-365) -/

/-- A row of `web_logs` (README schema lines 494-501): note there is **no**
`organization_id` and no `user_id` column — the table is not tenant-scoped. -/
structure WebLogRow where
  id : String
  domain : String
  url : Option String
  activity_type : String
  timestamp : String
  created_at : String
  deriving Repr, DecidableEq

/-- One entry of the `topSites` payload. -/
structure TopSite where
  domain : String
  visitCount : Nat
  activityType : String
  deriving Repr, DecidableEq

/-- One entry of the `topDistractions` payload. -/
structure Distraction where
  domain : String
  visitCount : Nat
  deriving Repr, DecidableEq

/-- The percentage breakdown of the response. -/
structure WebStatsBreakdown where
  productive : Nat
  unproductive : Nat
  meeting : Nat
  total : Nat
  deriving Repr, DecidableEq

/-- The `GET /web-stats` response payload. -/
structure WebStatsResp where
  success : Bool
  breakdown : WebStatsBreakdown
  topSites : List TopSite
  topDistractions : List Distraction
  deriving Repr, DecidableEq

/-- Insert keeping a visit-count-descending order (`ORDER BY visit_count
DESC`; tie order is unspecified in SQL, fixed arbitrarily here). -/
def insertCountDesc {α : Type} (count : α → Nat) (x : α) :
    List α → List α
  | [] => [x]
  | y :: ys =>
    if count y < count x then
      x :: y :: ys
    else
      y :: insertCountDesc count x ys

/-- Sort descending by a count measure. -/
def sortCountDesc {α : Type} (count : α → Nat) : List α → List α
  | [] => []
  | x :: xs => insertCountDesc count x (sortCountDesc count xs)

/-- `Math.round((count / total) * 100)` on exact rationals: round half up of
`100 * count / total`.  (The float detail of `Math.round` is irrelevant here —
the computation is a function of the rows alone.) -/
def roundPct (count total : Nat) : Nat :=
  (2 * (100 * count) + total) / (2 * total)

/-- The `GET /api/reports/web-stats` handler: the route mounts **no**
`authenticate` middleware ("No authentication required (local extension
data)") and its body never reads `req.user`; the `caller` argument — possibly
anonymous — is accepted and ignored, exactly as in the source.  All three
queries range over every `web_logs` row of the current day with no
organization or user filter. -/
def webStatsHandler (_caller : Option Actor) (weblogs : List WebLogRow)
    (dayStart dayEnd : String) : WebStatsResp :=
  let rowsToday := weblogs.filter (fun r =>
    !(tsLt r.timestamp dayStart) && !(tsLt dayEnd r.timestamp))
  let total := rowsToday.length
  let pct := fun (t : String) =>
    if total = 0 then 0
    else roundPct (rowsToday.countP (fun r => decide (r.activity_type = t))) total
  let pairs := (rowsToday.map (fun r => (r.domain, r.activity_type))).dedup
  let sites := pairs.map (fun p =>
    TopSite.mk p.1
      (rowsToday.countP (fun r => decide (r.domain = p.1 ∧ r.activity_type = p.2)))
      p.2)
  let unprod := rowsToday.filter (fun r => decide (r.activity_type = "Unproductive"))
  let doms := (unprod.map (fun r => r.domain)).dedup
  let distr := doms.map (fun d =>
    Distraction.mk d (unprod.countP (fun r => decide (r.domain = d))))
  { success := true,
    breakdown :=
      { productive := pct "Productive", unproductive := pct "Unproductive",
        meeting := pct "Meeting", total := total },
    topSites := (sortCountDesc TopSite.visitCount sites).take 5,
    topDistractions := (sortCountDesc Distraction.visitCount distr).take 5 }

/-- **C10** — `GET /web-stats` requires no authentication and applies no
organization or user scoping: the `web_logs` table has no `organization_id`
column (see `WebLogRow`), and for any two callers — or an anonymous caller —
the endpoint computes its breakdown, top sites and top distractions from the
same set of all `web_logs` rows of the current day, so the response is
independent of the caller's identity and an anonymous call succeeds. -/
theorem webStats_identity_independent (weblogs : List WebLogRow)
    (dayStart dayEnd : String) :
    (∀ caller1 caller2 : Option Actor,
       webStatsHandler caller1 weblogs dayStart dayEnd
         = webStatsHandler caller2 weblogs dayStart dayEnd) ∧
    (webStatsHandler none weblogs dayStart dayEnd).success = true := by
  constructor
  · intro caller1 caller2
    rfl
  · rfl

end TimeTracker
